import Mathlib

/-!
Verification development for the metals-curve ingestion worker
(source file api/metals_run.js).

Modelling conventions:
* JavaScript numbers are modelled exactly as rationals.  The claims under
  verification depend on finiteness, defaulting and row counts, never on
  binary floating-point rounding, so the exact-rational model is faithful
  for them.  NaN and the infinities are collapsed into the absence of a
  value, because the only consumer of a parsed number applies
  Number.isFinite and treats NaN, Infinity and null alike.
* Strings are Lean strings.  The JavaScript trim, split, slice and
  toLowerCase operations are modelled by structurally recursive functions
  over the character list of the string (the inputs of interest are
  ASCII), so that every definition evaluates inside the kernel.
* The relational store is a record of three lists (one per table), with
  every SQL statement of the handler modelled as an explicit list
  transformation.  Timestamps (NOW columns) carry no information used by
  any claim and are omitted.  The ORDER BY of the history-conflict query
  affects only the presentation order of the returned rows and is not
  modelled: the conflict outcome carries the rows in table order.
* The run-date resolver getTodayCT reads the real clock, so its result
  is an input of the model (Env.todayStr), the resolved run date.
* Statement failure inside the write transaction is modelled by an
  injected fault index (Env.txnFailAt): the statement with that index
  inside the BEGIN/COMMIT block throws.  Other exception sources are not
  modelled.  The audit insert logIngest swallows its own errors; the
  model treats it as always succeeding.
-/

namespace MetalsRun

/-! ### String primitives, structurally recursive over character lists -/

/-- Trim of a character list: drop whitespace at both ends (models the
JavaScript trim on the ASCII inputs of interest). -/
def trimChars (cs : List Char) : List Char :=
  ((cs.dropWhile Char.isWhitespace).reverse.dropWhile Char.isWhitespace).reverse

/-- Trim of a string. -/
def jsTrim (s : String) : String :=
  ⟨trimChars s.data⟩

/-- Lowercasing of a string (JavaScript toLowerCase on ASCII input). -/
def strToLower (s : String) : String :=
  ⟨s.data.map Char.toLower⟩

/-- Prefix test on strings (the JavaScript startsWith). -/
def strStartsWith (s p : String) : Bool :=
  p.data.isPrefixOf s.data

/-- Split on the line-break pattern of a carriage return directly before
a newline, or a bare newline (the split of api/metals_run.js line 96). -/
def splitRn : List Char → List (List Char)
  | [] => [[]]
  | '\r' :: '\n' :: rest => [] :: splitRn rest
  | '\n' :: rest => [] :: splitRn rest
  | c :: rest =>
    match splitRn rest with
    | [] => [[c]]
    | l :: ls => (c :: l) :: ls

/-! ### JavaScript numeric conversion, modelled over the rationals -/

/-- Value of a decimal digit character, if it is one. -/
def digitVal (c : Char) : Option Nat :=
  if c.isDigit then some (c.toNat - 48) else none

/-- Nonempty all-digit character list to a natural number. -/
def digitsToNat (cs : List Char) : Option Nat :=
  if cs.isEmpty then none
  else if cs.all Char.isDigit then
    some (cs.foldl (fun a c => a * 10 + (c.toNat - 48)) 0)
  else none

/-- Value of a hexadecimal digit character, if it is one. -/
def hexDigitVal (c : Char) : Option Nat :=
  if c.isDigit then some (c.toNat - 48)
  else if 97 ≤ c.toNat ∧ c.toNat ≤ 102 then some (c.toNat - 87)
  else if 65 ≤ c.toNat ∧ c.toNat ≤ 70 then some (c.toNat - 55)
  else none

/-- Nonempty hex-digit character list to a natural number. -/
def hexToNat (cs : List Char) : Option Nat :=
  if cs.isEmpty then none
  else cs.foldl (fun a? c => a?.bind fun a => (hexDigitVal c).map fun d => a * 16 + d)
    (some 0)

/-- Digits of a bounded radix (used for the 0o and 0b literal forms). -/
def radixToNat (radix : Nat) (cs : List Char) : Option Nat :=
  if cs.isEmpty then none
  else cs.foldl
    (fun a? c => a?.bind fun a =>
      (digitVal c).bind fun d => if d < radix then some (a * radix + d) else none)
    (some 0)

/-- Mantissa of a JavaScript decimal literal: digits, digits dot digits,
digits dot, or dot digits.  The exact value is returned as an unreduced
numerator and denominator pair (rational arithmetic is deferred to one
final mkRat so that every value is kernel-computable). -/
def mantissa (cs : List Char) : Option (Nat × Nat) :=
  let ip := cs.takeWhile fun c => c ≠ '.'
  let rest := cs.dropWhile fun c => c ≠ '.'
  match rest with
  | [] => (digitsToNat ip).map fun n => (n, 1)
  | _ :: fp =>
    if fp.contains '.' then none
    else if ip.isEmpty then
      (digitsToNat fp).map fun m => (m, 10 ^ fp.length)
    else
      match digitsToNat ip with
      | none => none
      | some n =>
        if fp.isEmpty then some (n, 1)
        else (digitsToNat fp).map fun m => (n * 10 ^ fp.length + m, 10 ^ fp.length)

/-- Exponent part of a JavaScript decimal literal (after the e). -/
def exponentPart (cs : List Char) : Option ℤ :=
  match cs with
  | '+' :: ds => (digitsToNat ds).map fun n => (n : ℤ)
  | '-' :: ds => (digitsToNat ds).map fun n => -(n : ℤ)
  | ds => (digitsToNat ds).map fun n => (n : ℤ)

/-- The signed value num over den, scaled by ten to the power e. -/
def scaledRat (neg : Bool) (num den : Nat) (e : ℤ) : ℚ :=
  let sn : ℤ := if neg then -(num : ℤ) else (num : ℤ)
  match e with
  | .ofNat k => mkRat (sn * (10 : ℤ) ^ k) den
  | .negSucc k => mkRat sn (den * 10 ^ (k + 1))

/-- Signed JavaScript decimal literal with optional exponent. -/
def decLit (cs : List Char) : Option ℚ :=
  let sb : Bool × List Char :=
    match cs with
    | '+' :: r => (false, r)
    | '-' :: r => (true, r)
    | r => (false, r)
  let mant := sb.2.takeWhile fun c => c ≠ 'e' ∧ c ≠ 'E'
  let expRest := sb.2.dropWhile fun c => c ≠ 'e' ∧ c ≠ 'E'
  match expRest with
  | [] => (mantissa mant).map fun m => scaledRat sb.1 m.1 m.2 0
  | _ :: ex =>
    match mantissa mant, exponentPart ex with
    | some m, some e => some (scaledRat sb.1 m.1 m.2 e)
    | _, _ => none

/-- JavaScript Number(string) conversion restricted to finite results:
returns none for NaN and for the infinities (the caller only ever keeps
finite values).  Handles whitespace, the empty string (zero), signed
decimal literals with exponent, and the 0x, 0o, 0b radix forms. -/
def jsNumber (s : String) : Option ℚ :=
  match trimChars s.data with
  | [] => some 0
  | t =>
    if t = "Infinity".data ∨ t = "+Infinity".data ∨ t = "-Infinity".data then none
    else
      match t with
      | '0' :: 'x' :: rest => (hexToNat rest).map fun n => mkRat n 1
      | '0' :: 'X' :: rest => (hexToNat rest).map fun n => mkRat n 1
      | '0' :: 'o' :: rest => (radixToNat 8 rest).map fun n => mkRat n 1
      | '0' :: 'O' :: rest => (radixToNat 8 rest).map fun n => mkRat n 1
      | '0' :: 'b' :: rest => (radixToNat 2 rest).map fun n => mkRat n 1
      | '0' :: 'B' :: rest => (radixToNat 2 rest).map fun n => mkRat n 1
      | u => decLit u

/-- Remove every comma of a string (the JavaScript replace with a global
comma pattern). -/
def stripCommas (s : String) : String :=
  ⟨s.data.filter fun c => c ≠ ','⟩

/-- toNumber of api/metals_run.js lines 85 to 90: strip commas, trim,
convert with Number, and keep the result only when finite. -/
def toNumber (s : String) : Option ℚ :=
  jsNumber (jsTrim (stripCommas s))

/-- toNumber applied to a field that may be absent (undefined in the
source, when the row is shorter than the header): absent yields null. -/
def toNumberOpt (v : Option String) : Option ℚ :=
  match v with
  | none => none
  | some s => toNumber s

/-! ### CSV tokenizing (parseCsvLine, cleanField) -/

/-- Character loop of parseCsvLine (lines 47 to 72): walks the line with
an in-quotes flag, doubling of a quote inside quotes is an escaped quote,
a comma outside quotes ends the current field. -/
def parseCsvChars : List Char → Bool → String → List String
  | [], _, cur => [cur]
  | '"' :: '"' :: rest, true, cur => parseCsvChars rest true (cur.push '"')
  | '"' :: rest, true, cur => parseCsvChars rest false cur
  | '"' :: rest, false, cur => parseCsvChars rest true cur
  | ',' :: rest, false, cur => cur :: parseCsvChars rest false ""
  | c :: rest, inQuotes, cur => parseCsvChars rest inQuotes (cur.push c)

/-- parseCsvLine of the source: split one CSV line into raw fields. -/
def parseCsvLine (line : String) : List String :=
  parseCsvChars line.data false ""

/-- cleanField (lines 75 to 82): trim, strip one pair of wrapping
quotes, trim again. -/
def cleanField (v : String) : String :=
  let t := trimChars v.data
  let u :=
    if t.head? == some '"' && t.getLast? == some '"' then (t.drop 1).dropLast
    else t
  ⟨trimChars u⟩

/-! ### Row parser (parseMetalsCsv) -/

/-- One parsed curve observation, the row object built at lines 160 to
168.  price and deficit_gdp_flag are total (never null); the two
nullable numeric columns are options. -/
structure CurveRow where
  as_of_date : String
  metal : String
  tenor_months : ℚ
  price : ℚ
  real_10yr_yld : Option ℚ
  dollar_index : Option ℚ
  deficit_gdp_flag : ℚ
deriving DecidableEq

/-- Column positions of the seven required header names (the idx object
of lines 103 to 111), present only when every required name was found. -/
structure HeaderIdx where
  as_of_date : Nat
  metal : Nat
  tenor_months : Nat
  price : Nat
  real_10yr_yld : Nat
  dollar_index : Nat
  deficit_gdp_flag : Nat
deriving DecidableEq

/-- indexOf on the cleaned header: exact string equality, as in the
source (the spec speaks of a case-insensitive match; the code compares
exactly). -/
def findIdx (header : List String) (name : String) : Option Nat :=
  header.findIdx? fun h => h = name

/-- Resolve all seven required column positions, or fail (the guard of
lines 114 to 125). -/
def headerIdxOf (header : List String) : Option HeaderIdx :=
  match findIdx header "As Of Date", findIdx header "Metal",
      findIdx header "Tenor Months", findIdx header "Price",
      findIdx header "10 Yr Real Yld", findIdx header "Dollar Index",
      findIdx header "Deficit GDP Flag" with
  | some a, some b, some c, some d, some e, some f, some g =>
    some ⟨a, b, c, d, e, f, g⟩
  | _, _, _, _, _, _, _ => none

/-- Body of the data-row loop (lines 136 to 168) on the cleaned
columns of one line: require a truthy as-of date and metal, require a
finite tenor, default the remaining numeric fields. -/
def rowOfCols (idx : HeaderIdx) (cols : List String) : Option CurveRow :=
  match cols.get? idx.as_of_date, (cols.get? idx.metal).map strToLower with
  | some asOf, some metal =>
    if asOf.data.isEmpty || metal.data.isEmpty then none
    else
      match toNumberOpt (cols.get? idx.tenor_months) with
      | none => none
      | some tenor =>
        some
          { as_of_date := asOf
            metal := metal
            tenor_months := tenor
            price := (toNumberOpt (cols.get? idx.price)).getD 0
            real_10yr_yld := toNumberOpt (cols.get? idx.real_10yr_yld)
            dollar_index := toNumberOpt (cols.get? idx.dollar_index)
            deficit_gdp_flag := (toNumberOpt (cols.get? idx.deficit_gdp_flag)).getD 0 }
  | _, _ => none

/-- Body of the data-row loop (lines 133 to 168) for one nonblank
trimmed line: tokenize and clean the fields, then build the row. -/
def rowOfLine (idx : HeaderIdx) (line : String) : Option CurveRow :=
  rowOfCols idx ((parseCsvLine line).map cleanField)

/-- The for loop of lines 129 to 169: trim each line, skip blank lines,
push each accepted row onto the accumulator. -/
def parseRowsLoop (idx : HeaderIdx) : List String → List CurveRow → List CurveRow
  | [], acc => acc
  | l :: rest, acc =>
    let line := jsTrim l
    if line.data.isEmpty then parseRowsLoop idx rest acc
    else
      match rowOfLine idx line with
      | none => parseRowsLoop idx rest acc
      | some r => parseRowsLoop idx rest (acc ++ [r])

/-- parseMetalsCsv (lines 95 to 172): split the trimmed text into lines,
require at least a header and one data line, resolve the header columns,
then run the row loop. -/
def parseMetalsCsv (text : String) : List CurveRow :=
  match (splitRn (trimChars text.data)).map fun cs => String.mk cs with
  | [] => []
  | [_] => []
  | l0 :: rest =>
    let header := (parseCsvLine l0).map cleanField
    match headerIdxOf header with
    | none => []
    | some idx => parseRowsLoop idx rest []

/-! ### Relational store model -/

/-- One row of the metals_ingest_log audit table (the IngestRun record),
as inserted by logIngest (lines 31 to 44).  The logged_at timestamp is
omitted. -/
structure LogRow where
  run_date : String
  source : String
  status : String
  reason : Option String
  row_count : Nat
deriving DecidableEq

/-- The three tables owned by the handler: the audit log, the latest
projection (metals_curve_latest) and the history log
(metals_curve_history), each in table order. -/
structure DBState where
  ingestLog : List LogRow
  latest : List CurveRow
  history : List CurveRow
deriving DecidableEq

/-- Request parameters of an invocation that passed the token check:
the source query parameter and the force flag (force is the string
comparison of line 192 already decoded to a boolean). -/
structure Req where
  source : String
  force : Bool
deriving DecidableEq

/-- External inputs of one invocation: the resolved run date (the
getTodayCT result), whether METALS_CSV_URL is configured, whether the
fetch succeeded, the fetched CSV text, and the injected fault index for
the write transaction (none means every statement succeeds; some k means
the statement with index k inside BEGIN/COMMIT throws). -/
structure Env where
  todayStr : String
  csvUrlConfigured : Bool
  fetchOk : Bool
  csvText : String
  txnFailAt : Option Nat
deriving DecidableEq

/-- Terminal outcome of an invocation, mirroring the JSON responses of
the handler. -/
inductive Outcome where
  | skippedAlready
  | errorNoCsvUrl
  | errorFetchFailed
  | errorNoRows
  | errorMultipleDates (uniqueDates : List String)
  | errorDateMismatch (sheetDate expectedDate : String)
  | conflictExists (asOfDate : String) (existingRowCount : Nat)
      (existingRows : List CurveRow)
  | success (sheetDate : String) (rowCount : Nat) (triggerSource : String)
  | errorUnhandled
deriving DecidableEq

/-- The error string of the JSON body for the error outcomes, exactly as
written in the source. -/
def errorCode : Outcome → Option String
  | .errorNoCsvUrl => some "METALS_CSV_URL not configured in environment"
  | .errorFetchFailed => some "fetch_failed"
  | .errorNoRows => some "no_rows_in_sheet_or_bad_headers"
  | .errorMultipleDates _ => some "multiple_as_of_dates_in_sheet"
  | .errorDateMismatch _ _ => some "sheet_date_mismatch"
  | .errorUnhandled => some "unhandled_exception"
  | _ => none

/-- The audit status string each outcome is logged under. -/
def statusOf : Outcome → String
  | .skippedAlready => "skipped"
  | .conflictExists _ _ _ => "skipped"
  | .success _ _ _ => "success"
  | _ => "error"

/-- One write statement of the transaction of lines 352 to 424. -/
inductive Stmt where
  | delHistory (d : String)
  | delLatest (d : String)
  | upsertLatest (r : CurveRow)
  | insHistory (r : CurveRow)
deriving DecidableEq

/-- Whether two curve rows share the (metal, tenor_months) key of the
metals_curve_latest table. -/
def sameKey (a b : CurveRow) : Bool :=
  a.metal == b.metal && a.tenor_months == b.tenor_months

/-- Effect of one statement on the latest table. -/
def latestStep (l : List CurveRow) : Stmt → List CurveRow
  | .delHistory _ => l
  | .delLatest d => l.filter fun r => r.as_of_date ≠ d
  | .upsertLatest r =>
    if l.any fun x => sameKey x r then l.map fun x => if sameKey x r then r else x
    else l ++ [r]
  | .insHistory _ => l

/-- Effect of one statement on the history table. -/
def histStep (h : List CurveRow) : Stmt → List CurveRow
  | .delHistory d => h.filter fun r => r.as_of_date ≠ d
  | .delLatest _ => h
  | .upsertLatest _ => h
  | .insHistory r => h ++ [r]

/-- Run a statement list over the pair of data tables. -/
def runStmts (stmts : List Stmt) (st : List CurveRow × List CurveRow) :
    List CurveRow × List CurveRow :=
  stmts.foldl (fun s stmt => (latestStep s.1 stmt, histStep s.2 stmt)) st

/-- One observable database action of a run, in the order the client
issued it (reads are not recorded). -/
inductive Event where
  | logInsert (r : LogRow)
  | begin
  | stmt (s : Stmt)
  | commit
  | rollback
deriving DecidableEq

/-- Append one audit record (logIngest): the log table grows by exactly
one row; the data tables are untouched. -/
def appendLog (db : DBState) (r : LogRow) : DBState :=
  { db with ingestLog := db.ingestLog ++ [r] }

/-- The first-occurrence deduplication of the unique-dates computation
at line 268 (a JavaScript Set preserves insertion order). -/
def dedupFirst (l : List String) : List String :=
  l.foldl (fun acc d => if acc.contains d then acc else acc ++ [d]) []

/-- Result of one invocation: the outcome returned to the caller, the
database afterwards, and the trace of write actions. -/
structure HResult where
  outcome : Outcome
  db : DBState
  trace : List Event
deriving DecidableEq

/-! ### The handler, split along the stages of the source -/

/-- Whether the injected fault hits a statement of the transaction: the
fault index is within the issued statement list. -/
def txnFails : Option Nat → Nat → Bool
  | some k, n => decide (k < n)
  | none, _ => false

/-- The statement list of the write transaction (lines 352 to 423), in
issue order: the conditional history purge under force, the latest
delete for the sheet date, one upsert per row, one history insert per
row. -/
def txnStmts (existingHistory rows : List CurveRow) (force : Bool) (sheetDate : String) :
    List Stmt :=
  (if !existingHistory.isEmpty && force then [Stmt.delHistory sheetDate] else [])
    ++ [Stmt.delLatest sheetDate]
    ++ rows.map Stmt.upsertLatest
    ++ rows.map Stmt.insHistory

/-- Stages 3b and 4 of the handler (lines 315 to 448), entered with the
validated rows and the resolved sheet date: the history-conflict check,
then the write transaction with the success audit record inserted after
the commit, or rollback plus an error audit record when a statement of
the transaction throws. -/
def writeStage (env : Env) (req : Req) (db : DBState) (rows : List CurveRow)
    (sheetDate : String) : HResult :=
  let existingHistory := db.history.filter fun r => r.as_of_date == sheetDate
  if !existingHistory.isEmpty && !req.force then
    let lr : LogRow :=
      ⟨env.todayStr, req.source, "skipped", some "history_exists_for_date",
        existingHistory.length⟩
    { outcome := .conflictExists sheetDate existingHistory.length existingHistory
      db := appendLog db lr
      trace := [.logInsert lr] }
  else
    let stmts := txnStmts existingHistory rows req.force sheetDate
    if txnFails env.txnFailAt stmts.length then
      let lr : LogRow := ⟨env.todayStr, req.source, "error", some "unhandled_exception", 0⟩
      { outcome := .errorUnhandled
        db := appendLog db lr
        trace := [.begin]
          ++ ((stmts.take (env.txnFailAt.getD 0)).map Event.stmt)
          ++ [.rollback, .logInsert lr] }
    else
      let st := runStmts stmts (db.latest, db.history)
      let lr : LogRow := ⟨env.todayStr, req.source, "success", none, rows.length⟩
      { outcome := .success sheetDate rows.length req.source
        db := ⟨db.ingestLog ++ [lr], st.1, st.2⟩
        trace := [.begin] ++ (stmts.map Event.stmt) ++ [.commit, .logInsert lr] }

/-- Stage 3 of the handler (lines 267 to 310): collect the distinct
as-of dates; without force, reject zero-or-many distinct dates and a
date different from today; with force, overwrite every date with today
and skip both checks. -/
def dateStage (env : Env) (req : Req) (db : DBState) (rows : List CurveRow) : HResult :=
  let uniqueDates := dedupFirst (rows.map fun r => r.as_of_date)
  let sheetDate? : Option String :=
    match uniqueDates with
    | [d] => some d
    | _ => none
  if !req.force then
    match sheetDate? with
    | none =>
      let lr : LogRow :=
        ⟨env.todayStr, req.source, "error", some "multiple_as_of_dates_in_sheet",
          rows.length⟩
      { outcome := .errorMultipleDates uniqueDates
        db := appendLog db lr
        trace := [.logInsert lr] }
    | some sd =>
      if sd ≠ env.todayStr then
        let lr : LogRow :=
          ⟨env.todayStr, req.source, "error",
            some ("sheet_date_mismatch: sheet=" ++ sd ++ ", expected=" ++ env.todayStr),
            rows.length⟩
        { outcome := .errorDateMismatch sd env.todayStr
          db := appendLog db lr
          trace := [.logInsert lr] }
      else writeStage env req db rows sd
  else
    writeStage env req db (rows.map fun r => { r with as_of_date := env.todayStr })
      env.todayStr

/-- Whether the audit log already holds a success record for the run
date (the query of lines 199 to 210). -/
def hasSuccessToday (env : Env) (db : DBState) : Bool :=
  db.ingestLog.any fun l => l.run_date == env.todayStr && l.status == "success"

/-- The handler (lines 177 to 452) after the token check: duplicate
guard for cron sources, configuration and fetch guards, parse, then the
date stage and the write stage. -/
def handler (env : Env) (req : Req) (db : DBState) : HResult :=
  if strStartsWith req.source "cron" && hasSuccessToday env db && !req.force then
    let lr : LogRow := ⟨env.todayStr, req.source, "skipped", some "already_ingested_today", 0⟩
    { outcome := .skippedAlready, db := appendLog db lr, trace := [.logInsert lr] }
  else if !env.csvUrlConfigured then
    let lr : LogRow := ⟨env.todayStr, req.source, "error", some "METALS_CSV_URL_not_configured", 0⟩
    { outcome := .errorNoCsvUrl, db := appendLog db lr, trace := [.logInsert lr] }
  else if !env.fetchOk then
    let lr : LogRow := ⟨env.todayStr, req.source, "error", some "fetch_failed", 0⟩
    { outcome := .errorFetchFailed, db := appendLog db lr, trace := [.logInsert lr] }
  else
    let rows := parseMetalsCsv env.csvText
    if rows.isEmpty then
      let lr : LogRow :=
        ⟨env.todayStr, req.source, "error", some "no_rows_in_sheet_or_bad_headers", 0⟩
      { outcome := .errorNoRows, db := appendLog db lr, trace := [.logInsert lr] }
    else dateStage env req db rows

/-! ### Run sequences (for the cross-run invariants) -/

/-- The batch an invocation would write when it reaches the transaction:
the parsed rows, with every as-of date overwritten by today under
force. -/
def ingestRows (env : Env) (req : Req) : List CurveRow :=
  let rows := parseMetalsCsv env.csvText
  if req.force then rows.map fun r => { r with as_of_date := env.todayStr } else rows

/-- Database after a sequence of invocations. -/
def runSeq : List (Env × Req) → DBState → DBState
  | [], db => db
  | (e, r) :: rest, db => runSeq rest (handler e r db).db

/-- The successful batches of a sequence of invocations, in order: the
resolved sheet date and the written rows of every run whose outcome was
success. -/
def successBatches : List (Env × Req) → DBState → List (String × List CurveRow)
  | [], _ => []
  | (e, r) :: rest, db =>
    (match (handler e r db).outcome with
      | .success sd _ _ => [(sd, ingestRows e r)]
      | _ => []) ++ successBatches rest (handler e r db).db

/-- Whether a batch contains a row with the given latest-table key. -/
def keyMem (m : String) (t : ℚ) (rows : List CurveRow) : Bool :=
  rows.any fun r => r.metal == m && r.tenor_months == t

/-- The as-of date of the most recent successful batch containing the
given key, if any. -/
def lastDateFor (m : String) (t : ℚ) (batches : List (String × List CurveRow)) :
    Option String :=
  ((batches.filter fun b => keyMem m t b.2).getLast?).map Prod.fst

/-- The latest table after upserting every row of a batch in order
(the loop of lines 375 to 401). -/
def upsertAll (rows : List CurveRow) (st : List CurveRow) : List CurveRow :=
  rows.foldl (fun l r => latestStep l (.upsertLatest r)) st

/-- No two rows of the list share a (metal, tenorMonths) key. -/
def distinctKeys (l : List CurveRow) : Prop :=
  l.Pairwise fun a b => ¬(a.metal = b.metal ∧ a.tenor_months = b.tenor_months)

/-- Invariant of the latest table relative to the successful batches so
far: keys are unique, and every row carries the as-of date of the most
recent successful batch that contained its key. -/
def LatestInv (batches : List (String × List CurveRow)) (latest : List CurveRow) : Prop :=
  distinctKeys latest ∧
  ∀ r ∈ latest, lastDateFor r.metal r.tenor_months batches = some r.as_of_date

/-- Whether an event is an audit-record insert. -/
def isLogEv : Event → Bool
  | .logInsert _ => true
  | _ => false

/-! ### Definitions written from the words of the claims (for
refutation or refinement, not from the source) -/

/-- The seven required header labels. -/
def requiredNames : List String :=
  ["As Of Date", "Metal", "Tenor Months", "Price", "10 Yr Real Yld", "Dollar Index",
    "Deficit GDP Flag"]

/-- The cleaned header cells of a CSV text (first line). -/
def headerCells (text : String) : List String :=
  match (splitRn (trimChars text.data)).map (fun cs => String.mk cs) with
  | [] => []
  | l0 :: _ => (parseCsvLine l0).map cleanField

/-- Case- and whitespace-insensitive match of a header cell against a
required column name (the matching the spec of claim C7 describes). -/
def ciMatch (cell name : String) : Bool :=
  strToLower (jsTrim cell) == strToLower (jsTrim name)

/-- The premise of claim C7: some required column name has no header
cell matching it even case- and whitespace-insensitively. -/
def headerLacksRequiredCI (text : String) : Prop :=
  ∃ name ∈ requiredNames, ∀ cell ∈ headerCells text, ciMatch cell name = false

/-- Written from the words of claim C8, not from the source: keep a data
row only when the tenor and every other required numeric field parse to
a finite number after comma-stripping, and return the kept rows together
with a dropped-row count.  Used only to refute the claim against
parseMetalsCsv. -/
def claimParseC8 (text : String) : List CurveRow × Nat :=
  match (splitRn (trimChars text.data)).map (fun cs => String.mk cs) with
  | [] => ([], 0)
  | [_] => ([], 0)
  | l0 :: rest =>
    let header := (parseCsvLine l0).map cleanField
    match headerIdxOf header with
    | none => ([], 0)
    | some idx =>
      rest.foldl
        (fun acc l =>
          let line := jsTrim l
          if line.data.isEmpty then acc
          else
            let cols := (parseCsvLine line).map cleanField
            match cols.get? idx.as_of_date, (cols.get? idx.metal).map strToLower,
                toNumberOpt (cols.get? idx.tenor_months),
                toNumberOpt (cols.get? idx.price),
                toNumberOpt (cols.get? idx.real_10yr_yld),
                toNumberOpt (cols.get? idx.dollar_index),
                toNumberOpt (cols.get? idx.deficit_gdp_flag) with
            | some asOf, some metal, some tenor, some price, some yld, some dx,
                some deficit =>
              if asOf.data.isEmpty || metal.data.isEmpty then acc
              else (acc.1 ++ [⟨asOf, metal, tenor, price, some yld, some dx, deficit⟩],
                acc.2)
            | _, _, _, _, _, _, _ => (acc.1, acc.2 + 1))
        ([], 0)

/-- Written from the words of claim C9: in the trace of a run, a success
audit record is inserted strictly between the BEGIN and the COMMIT of
the transaction.  The quantification over positions is bounded by the
trace length, which is complete because positions beyond it hold no
event. -/
def successLogInsideTxn (tr : List Event) : Bool :=
  (List.range tr.length).any fun i =>
    (List.range tr.length).any fun j =>
      (List.range tr.length).any fun k =>
        decide (i < j) && decide (j < k) && (tr.get? i == some Event.begin)
          && (tr.get? k == some Event.commit)
          && (match tr.get? j with
              | some (Event.logInsert lr) => lr.status == "success"
              | _ => false)

/-! ### Sample data for concrete witnesses -/

/-- The header line of the metals sheet. -/
def sampleHeader : String :=
  "As Of Date,Metal,Tenor Months,Price,10 Yr Real Yld,Dollar Index,Deficit GDP Flag"

/-- Two good rows for 2024-01-02. -/
def sampleCsv2 : String :=
  sampleHeader ++ "\n2024-01-02,Gold,1,2050.5,1.72,104.2,1\n2024-01-02,Silver,3,23.4,1.72,104.2,0"

/-- Six good rows for 2024-01-02 (one batch, six tenors). -/
def sampleCsv6 : String :=
  sampleHeader
    ++ "\n2024-01-02,Gold,1,2050,1.7,104,1"
    ++ "\n2024-01-02,Gold,2,2052,1.7,104,1"
    ++ "\n2024-01-02,Gold,3,2054,1.7,104,1"
    ++ "\n2024-01-02,Gold,6,2058,1.7,104,1"
    ++ "\n2024-01-02,Gold,9,2061,1.7,104,1"
    ++ "\n2024-01-02,Gold,12,2065,1.7,104,1"

/-- Ten data rows, two of them with a non-numeric tenor. -/
def sampleCsv10 : String :=
  sampleHeader
    ++ "\n2024-01-02,Gold,1,2050,1.7,104,1"
    ++ "\n2024-01-02,Gold,2,2052,1.7,104,1"
    ++ "\n2024-01-02,Gold,abc,2054,1.7,104,1"
    ++ "\n2024-01-02,Gold,6,2058,1.7,104,1"
    ++ "\n2024-01-02,Gold,9,2061,1.7,104,1"
    ++ "\n2024-01-02,Gold,12,2065,1.7,104,1"
    ++ "\n2024-01-02,Silver,n/a,23,1.7,104,0"
    ++ "\n2024-01-02,Silver,3,23,1.7,104,0"
    ++ "\n2024-01-02,Silver,6,24,1.7,104,0"
    ++ "\n2024-01-02,Silver,12,25,1.7,104,0"

/-- A sheet whose header lacks the Metal column. -/
def sampleCsvNoMetal : String :=
  "As Of Date,Tenor Months,Price,10 Yr Real Yld,Dollar Index,Deficit GDP Flag\n2024-01-02,1,2050,1.7,104,1"

/-- A sheet with a good header whose only data row has an unparseable
tenor, so every row is dropped. -/
def sampleCsvAllDropped : String :=
  sampleHeader ++ "\n2024-01-02,Gold,none,2050,1.7,104,1"

/-- Two rows, the second with a non-numeric price but a good tenor. -/
def sampleCsvBadPrice : String :=
  sampleHeader
    ++ "\n2024-01-02,Gold,1,2050,1.7,104,1"
    ++ "\n2024-01-02,Gold,2,n/a,1.7,104,1"

/-! ### Decomposition lemmas for the transaction -/

theorem runStmts_split (stmts : List Stmt) (l h : List CurveRow) :
    runStmts stmts (l, h) = (stmts.foldl latestStep l, stmts.foldl histStep h) := by
  induction stmts generalizing l h with
  | nil => rfl
  | cons s rest ih => simpa [runStmts, List.foldl_cons] using ih _ _

theorem foldl_latestStep_upserts (rows : List CurveRow) (l : List CurveRow) :
    (rows.map Stmt.upsertLatest).foldl latestStep l = upsertAll rows l := by
  simp [upsertAll, List.foldl_map]

theorem foldl_latestStep_inserts (rows : List CurveRow) (l : List CurveRow) :
    (rows.map Stmt.insHistory).foldl latestStep l = l := by
  induction rows generalizing l with
  | nil => rfl
  | cons r rest ih => simpa [latestStep] using ih l

theorem foldl_histStep_upserts (rows : List CurveRow) (h : List CurveRow) :
    (rows.map Stmt.upsertLatest).foldl histStep h = h := by
  induction rows generalizing h with
  | nil => rfl
  | cons r rest ih => simpa [histStep] using ih h

theorem foldl_histStep_inserts (rows : List CurveRow) (h : List CurveRow) :
    (rows.map Stmt.insHistory).foldl histStep h = h ++ rows := by
  induction rows generalizing h with
  | nil => simp
  | cons r rest ih => simp [histStep, ih (h ++ [r])]

theorem latest_after_txn (existing rows : List CurveRow) (force : Bool) (sd : String)
    (l : List CurveRow) :
    (txnStmts existing rows force sd).foldl latestStep l =
      upsertAll rows (l.filter fun r => r.as_of_date ≠ sd) := by
  unfold txnStmts
  rcases h : !existing.isEmpty && force with _ | _ <;>
    simp [List.foldl_append, latestStep, foldl_latestStep_upserts,
      foldl_latestStep_inserts]

theorem hist_after_txn (existing rows : List CurveRow) (force : Bool) (sd : String)
    (h : List CurveRow) :
    (txnStmts existing rows force sd).foldl histStep h =
      (if !existing.isEmpty && force then h.filter fun r => r.as_of_date ≠ sd else h)
        ++ rows := by
  unfold txnStmts
  rcases hc : !existing.isEmpty && force with _ | _ <;>
    simp [List.foldl_append, histStep, foldl_histStep_upserts, foldl_histStep_inserts]

/-! ### Branch characterizations of the stages -/

theorem writeStage_conflict (env : Env) (req : Req) (db : DBState)
    (rows : List CurveRow) (sd : String)
    (hc : (!(db.history.filter fun r => r.as_of_date == sd).isEmpty && !req.force)
      = true) :
    writeStage env req db rows sd =
      { outcome := .conflictExists sd (db.history.filter fun r => r.as_of_date == sd).length
          (db.history.filter fun r => r.as_of_date == sd)
        db := appendLog db ⟨env.todayStr, req.source, "skipped",
          some "history_exists_for_date",
          (db.history.filter fun r => r.as_of_date == sd).length⟩
        trace := [.logInsert ⟨env.todayStr, req.source, "skipped",
          some "history_exists_for_date",
          (db.history.filter fun r => r.as_of_date == sd).length⟩] } := by
  unfold writeStage
  simp only [hc, if_true]

theorem writeStage_fail (env : Env) (req : Req) (db : DBState)
    (rows : List CurveRow) (sd : String)
    (hc : (!(db.history.filter fun r => r.as_of_date == sd).isEmpty && !req.force)
      = false)
    (hf : txnFails env.txnFailAt
      (txnStmts (db.history.filter fun r => r.as_of_date == sd) rows req.force sd).length
      = true) :
    writeStage env req db rows sd =
      { outcome := .errorUnhandled
        db := appendLog db ⟨env.todayStr, req.source, "error",
          some "unhandled_exception", 0⟩
        trace := [.begin]
          ++ (((txnStmts (db.history.filter fun r => r.as_of_date == sd) rows req.force
                sd).take (env.txnFailAt.getD 0)).map Event.stmt)
          ++ [.rollback, .logInsert ⟨env.todayStr, req.source, "error",
                some "unhandled_exception", 0⟩] } := by
  unfold writeStage
  simp only [hc, hf, Bool.false_eq_true, if_false, if_true]

theorem writeStage_ok (env : Env) (req : Req) (db : DBState)
    (rows : List CurveRow) (sd : String)
    (hc : (!(db.history.filter fun r => r.as_of_date == sd).isEmpty && !req.force)
      = false)
    (hf : txnFails env.txnFailAt
      (txnStmts (db.history.filter fun r => r.as_of_date == sd) rows req.force sd).length
      = false) :
    writeStage env req db rows sd =
      { outcome := .success sd rows.length req.source
        db := ⟨db.ingestLog ++ [⟨env.todayStr, req.source, "success", none, rows.length⟩],
          upsertAll rows (db.latest.filter fun r => r.as_of_date ≠ sd),
          (db.history.filter fun r => r.as_of_date ≠ sd) ++ rows⟩
        trace := [.begin]
          ++ ((txnStmts (db.history.filter fun r => r.as_of_date == sd) rows req.force
                sd).map Event.stmt)
          ++ [.commit, .logInsert ⟨env.todayStr, req.source, "success", none,
                rows.length⟩] } := by
  have hist : (txnStmts (db.history.filter fun r => r.as_of_date == sd) rows req.force
      sd).foldl histStep db.history = (db.history.filter fun r => r.as_of_date ≠ sd) ++ rows := by
    rw [hist_after_txn]
    rcases hdel : !(db.history.filter fun r => r.as_of_date == sd).isEmpty && req.force with _ | _
    · -- no purge statement: success with no conflict forces the existing history
      -- at the sheet date to be empty, so the filter keeps everything
      have hemp : (db.history.filter fun r => r.as_of_date == sd) = [] := by
        rcases he : (db.history.filter fun r => r.as_of_date == sd).isEmpty with _ | _
        · rcases hfo : req.force with _ | _
          · simp [he, hfo] at hc
          · simp [he, hfo] at hdel
        · exact List.isEmpty_iff.mp he
      have hkeep : db.history.filter (fun r => !decide (r.as_of_date = sd)) = db.history := by
        refine List.filter_eq_self.mpr fun r hr => ?_
        have hne := List.filter_eq_nil_iff.mp hemp r hr
        simp only [beq_iff_eq] at hne
        simp [hne]
      simp only [hdel, Bool.false_eq_true, if_false]
      simp only [ne_eq, decide_not, hkeep]
    · simp [hdel]
  unfold writeStage
  simp only [hc, hf, Bool.false_eq_true, if_false]
  rw [runStmts_split, latest_after_txn, hist]

/-! ### Properties of the unique-dates computation -/

theorem foldl_dedup_mem (l : List String) (acc : List String) (x : String) :
    x ∈ l.foldl (fun acc d => if acc.contains d then acc else acc ++ [d]) acc ↔
      x ∈ acc ∨ x ∈ l := by
  induction l generalizing acc with
  | nil => simp
  | cons d t ih =>
    rw [List.foldl_cons, ih]
    by_cases hd : acc.contains d = true
    · simp only [hd, if_true]
      constructor
      · rintro (hx | hx)
        · exact Or.inl hx
        · exact Or.inr (List.mem_cons_of_mem _ hx)
      · rintro (hx | hx)
        · exact Or.inl hx
        · rcases List.mem_cons.mp hx with rfl | hx
          · exact Or.inl (by simpa using hd)
          · exact Or.inr hx
    · simp only [hd, Bool.false_eq_true, if_false]
      constructor
      · rintro (hx | hx)
        · rcases List.mem_append.mp hx with hx | hx
          · exact Or.inl hx
          · simp only [List.mem_singleton] at hx
            exact Or.inr (hx ▸ List.mem_cons_self d t)
        · exact Or.inr (List.mem_cons_of_mem _ hx)
      · rintro (hx | hx)
        · exact Or.inl (List.mem_append.mpr (Or.inl hx))
        · rcases List.mem_cons.mp hx with rfl | hx
          · exact Or.inl (List.mem_append.mpr (Or.inr (List.mem_singleton.mpr rfl)))
          · exact Or.inr hx

theorem mem_dedupFirst (l : List String) (x : String) :
    x ∈ dedupFirst l ↔ x ∈ l := by
  unfold dedupFirst
  rw [foldl_dedup_mem]
  simp

theorem dedupFirst_singleton {l : List String} {d : String}
    (h : dedupFirst l = [d]) : (∀ x ∈ l, x = d) ∧ l ≠ [] := by
  constructor
  · intro x hx
    have := (mem_dedupFirst l x).mpr hx
    rw [h] at this
    exact List.mem_singleton.mp this
  · intro hnil
    have := (mem_dedupFirst l d).mp (by rw [h]; exact List.mem_singleton.mpr rfl)
    rw [hnil] at this
    exact absurd this (List.not_mem_nil d)

/-! ### Handler branch characterizations -/

theorem handler_skip (env : Env) (req : Req) (db : DBState)
    (h : (strStartsWith req.source "cron" && hasSuccessToday env db && !req.force)
      = true) :
    handler env req db =
      { outcome := .skippedAlready
        db := appendLog db ⟨env.todayStr, req.source, "skipped",
          some "already_ingested_today", 0⟩
        trace := [.logInsert ⟨env.todayStr, req.source, "skipped",
          some "already_ingested_today", 0⟩] } := by
  unfold handler
  rw [h]
  simp

theorem handler_guard_pass (env : Env) (req : Req) (db : DBState)
    (h1 : (strStartsWith req.source "cron" && hasSuccessToday env db && !req.force)
      = false)
    (h2 : env.csvUrlConfigured = true) (h3 : env.fetchOk = true)
    (h4 : parseMetalsCsv env.csvText ≠ []) :
    handler env req db = dateStage env req db (parseMetalsCsv env.csvText) := by
  have hne : (parseMetalsCsv env.csvText).isEmpty = false := by
    rcases hi : (parseMetalsCsv env.csvText).isEmpty with _ | _
    · rfl
    · exact absurd (List.isEmpty_iff.mp hi) h4
  unfold handler
  rw [h1, h2, h3]
  simp [hne]

theorem dateStage_force (env : Env) (req : Req) (db : DBState) (rows : List CurveRow)
    (hf : req.force = true) :
    dateStage env req db rows =
      writeStage env req db (rows.map fun r => { r with as_of_date := env.todayStr })
        env.todayStr := by
  unfold dateStage
  rw [hf]
  simp

theorem dateStage_noforce_ok (env : Env) (req : Req) (db : DBState)
    (rows : List CurveRow) (hf : req.force = false)
    (hd : dedupFirst (rows.map fun r => r.as_of_date) = [env.todayStr]) :
    dateStage env req db rows = writeStage env req db rows env.todayStr := by
  unfold dateStage
  rw [hf, hd]
  simp

theorem dateStage_mismatch (env : Env) (req : Req) (db : DBState)
    (rows : List CurveRow) (sd : String) (hf : req.force = false)
    (hd : dedupFirst (rows.map fun r => r.as_of_date) = [sd])
    (hne : sd ≠ env.todayStr) :
    dateStage env req db rows =
      { outcome := .errorDateMismatch sd env.todayStr
        db := appendLog db ⟨env.todayStr, req.source, "error",
          some ("sheet_date_mismatch: sheet=" ++ sd ++ ", expected=" ++ env.todayStr),
          rows.length⟩
        trace := [.logInsert ⟨env.todayStr, req.source, "error",
          some ("sheet_date_mismatch: sheet=" ++ sd ++ ", expected=" ++ env.todayStr),
          rows.length⟩] } := by
  unfold dateStage
  rw [hf, hd]
  simp [hne]

/-! ### Characterization of a successful run -/

theorem handler_succ_write (env : Env) (req : Req) (db : DBState)
    (sd : String) (n : Nat) (src : String)
    (h : (handler env req db).outcome = .success sd n src) :
    handler env req db = writeStage env req db (ingestRows env req) env.todayStr ∧
    (∀ r ∈ ingestRows env req, r.as_of_date = env.todayStr) ∧
    ingestRows env req ≠ [] := by
  have hg1 : (strStartsWith req.source "cron" && hasSuccessToday env db && !req.force)
      = false := by
    rcases hx : (strStartsWith req.source "cron" && hasSuccessToday env db && !req.force)
      with _ | _
    · rfl
    · rw [handler_skip env req db hx] at h
      simp at h
  have hg2 : env.csvUrlConfigured = true := by
    rcases hx : env.csvUrlConfigured with _ | _
    · unfold handler at h
      rw [hg1, hx] at h
      simp at h
    · rfl
  have hg3 : env.fetchOk = true := by
    rcases hx : env.fetchOk with _ | _
    · unfold handler at h
      rw [hg1, hg2, hx] at h
      simp at h
    · rfl
  have hg4 : parseMetalsCsv env.csvText ≠ [] := by
    intro hnil
    unfold handler at h
    rw [hg1, hg2, hg3] at h
    simp [hnil] at h
  have hpass := handler_guard_pass env req db hg1 hg2 hg3 hg4
  rw [hpass] at h ⊢
  rcases hforce : req.force with _ | _
  · rcases hu : dedupFirst ((parseMetalsCsv env.csvText).map fun r => r.as_of_date)
      with _ | ⟨d, t⟩
    · unfold dateStage at h
      rw [hforce, hu] at h
      simp at h
    · rcases t with _ | ⟨d2, t2⟩
      · by_cases hd : d = env.todayStr
        · subst hd
          have heq := dateStage_noforce_ok env req db _ hforce hu
          rw [heq]
          have hIng : ingestRows env req = parseMetalsCsv env.csvText := by
            simp [ingestRows, hforce]
          refine ⟨by rw [hIng], ?_, ?_⟩
          · intro r hr
            rw [hIng] at hr
            exact (dedupFirst_singleton hu).1 _ (List.mem_map_of_mem _ hr)
          · rw [hIng]
            exact hg4
        · rw [dateStage_mismatch env req db _ d hforce hu hd] at h
          simp at h
      · unfold dateStage at h
        rw [hforce, hu] at h
        simp at h
  · have heq := dateStage_force env req db (parseMetalsCsv env.csvText) hforce
    rw [heq]
    have hIng : ingestRows env req =
        (parseMetalsCsv env.csvText).map fun r => { r with as_of_date := env.todayStr } := by
      simp [ingestRows, hforce]
    refine ⟨by rw [hIng], ?_, ?_⟩
    · intro r hr
      rw [hIng] at hr
      rcases List.mem_map.mp hr with ⟨x, hx, rfl⟩
      rfl
    · rw [hIng]
      intro hmapnil
      exact hg4 (List.map_eq_nil_iff.mp hmapnil)

theorem handler_succ_char (env : Env) (req : Req) (db : DBState)
    (sd : String) (n : Nat) (src : String)
    (h : (handler env req db).outcome = .success sd n src) :
    sd = env.todayStr ∧ n = (ingestRows env req).length ∧ src = req.source ∧
    (∀ r ∈ ingestRows env req, r.as_of_date = env.todayStr) ∧
    ingestRows env req ≠ [] ∧
    handler env req db =
      { outcome := .success env.todayStr (ingestRows env req).length req.source
        db := ⟨db.ingestLog ++ [⟨env.todayStr, req.source, "success", none,
            (ingestRows env req).length⟩],
          upsertAll (ingestRows env req)
            (db.latest.filter fun r => r.as_of_date ≠ env.todayStr),
          (db.history.filter fun r => r.as_of_date ≠ env.todayStr) ++ ingestRows env req⟩
        trace := [.begin]
          ++ ((txnStmts (db.history.filter fun r => r.as_of_date == env.todayStr)
                (ingestRows env req) req.force env.todayStr).map Event.stmt)
          ++ [.commit, .logInsert ⟨env.todayStr, req.source, "success", none,
                (ingestRows env req).length⟩] } := by
  obtain ⟨hw, hdates, hne⟩ := handler_succ_write env req db sd n src h
  rw [hw] at h
  have hc : (!(db.history.filter fun r => r.as_of_date == env.todayStr).isEmpty
      && !req.force) = false := by
    rcases hx : (!(db.history.filter fun r => r.as_of_date == env.todayStr).isEmpty
        && !req.force) with _ | _
    · exact hx
    · rw [writeStage_conflict env req db _ _ hx] at h
      simp at h
  have hf : txnFails env.txnFailAt
      (txnStmts (db.history.filter fun r => r.as_of_date == env.todayStr)
        (ingestRows env req) req.force env.todayStr).length = false := by
    rcases hx : txnFails env.txnFailAt
        (txnStmts (db.history.filter fun r => r.as_of_date == env.todayStr)
          (ingestRows env req) req.force env.todayStr).length with _ | _
    · rfl
    · rw [writeStage_fail env req db _ _ hc hx] at h
      simp at h
  have hok := writeStage_ok env req db (ingestRows env req) env.todayStr hc hf
  rw [hok] at h
  simp only [Outcome.success.injEq] at h
  exact ⟨h.1.symm, h.2.1.symm, h.2.2.symm, hdates, hne, hw.trans hok⟩

theorem handler_unhandled_write (env : Env) (req : Req) (db : DBState)
    (h : (handler env req db).outcome = .errorUnhandled) :
    handler env req db = writeStage env req db (ingestRows env req) env.todayStr := by
  have hg1 : (strStartsWith req.source "cron" && hasSuccessToday env db && !req.force)
      = false := by
    rcases hx : (strStartsWith req.source "cron" && hasSuccessToday env db && !req.force)
      with _ | _
    · rfl
    · rw [handler_skip env req db hx] at h
      simp at h
  have hg2 : env.csvUrlConfigured = true := by
    rcases hx : env.csvUrlConfigured with _ | _
    · unfold handler at h
      rw [hg1, hx] at h
      simp at h
    · rfl
  have hg3 : env.fetchOk = true := by
    rcases hx : env.fetchOk with _ | _
    · unfold handler at h
      rw [hg1, hg2, hx] at h
      simp at h
    · rfl
  have hg4 : parseMetalsCsv env.csvText ≠ [] := by
    intro hnil
    unfold handler at h
    rw [hg1, hg2, hg3] at h
    simp [hnil] at h
  have hpass := handler_guard_pass env req db hg1 hg2 hg3 hg4
  rw [hpass] at h ⊢
  rcases hforce : req.force with _ | _
  · rcases hu : dedupFirst ((parseMetalsCsv env.csvText).map fun r => r.as_of_date)
      with _ | ⟨d, t⟩
    · unfold dateStage at h
      rw [hforce, hu] at h
      simp at h
    · rcases t with _ | ⟨d2, t2⟩
      · by_cases hd : d = env.todayStr
        · subst hd
          have heq := dateStage_noforce_ok env req db _ hforce hu
          rw [heq]
          have hIng : ingestRows env req = parseMetalsCsv env.csvText := by
            simp [ingestRows, hforce]
          rw [hIng]
        · rw [dateStage_mismatch env req db _ d hforce hu hd] at h
          simp at h
      · unfold dateStage at h
        rw [hforce, hu] at h
        simp at h
  · have heq := dateStage_force env req db (parseMetalsCsv env.csvText) hforce
    rw [heq]
    have hIng : ingestRows env req =
        (parseMetalsCsv env.csvText).map fun r => { r with as_of_date := env.todayStr } := by
      simp [ingestRows, hforce]
    rw [hIng]

theorem filter_isLogEv_stmts (l : List Stmt) :
    (l.map Event.stmt).filter isLogEv = [] := by
  induction l with
  | nil => rfl
  | cons s t ih => simp [isLogEv, ih]

theorem filter_isLogEv_take_stmts (l : List Stmt) (k : Nat) :
    ((l.map Event.stmt).take k).filter isLogEv = [] := by
  refine List.filter_eq_nil_iff.mpr fun e he => ?_
  have he2 : e ∈ l.map Event.stmt := List.take_subset _ _ he
  rcases List.mem_map.mp he2 with ⟨s, _, rfl⟩
  simp [isLogEv]

/-! ### Claims -/

/-- C1: for every invocation where the audit log already holds a success
IngestRun record for the resolved run date, the trigger source begins
with the reserved scheduled-run prefix cron, and force is false, the
handler returns the skipped outcome with reason already_ingested_today,
writes exactly one skipped IngestRun record, and issues no write against
the latest or history tables (both are unchanged and the trace holds no
data statement). -/
theorem scheduled_duplicate_run_skips (env : Env) (req : Req) (db : DBState)
    (hprior : ∃ l ∈ db.ingestLog, l.run_date = env.todayStr ∧ l.status = "success")
    (hsched : strStartsWith req.source "cron" = true)
    (hforce : req.force = false) :
    (handler env req db).outcome = .skippedAlready ∧
    (handler env req db).db.latest = db.latest ∧
    (handler env req db).db.history = db.history ∧
    (handler env req db).db.ingestLog = db.ingestLog ++
      [⟨env.todayStr, req.source, "skipped", some "already_ingested_today", 0⟩] ∧
    ∀ e ∈ (handler env req db).trace, ∀ s : Stmt, e ≠ .stmt s := by
  have hsucc : hasSuccessToday env db = true := by
    unfold hasSuccessToday
    rw [List.any_eq_true]
    obtain ⟨l, hl, h1, h2⟩ := hprior
    exact ⟨l, hl, by simp [h1, h2]⟩
  have hcond : (strStartsWith req.source "cron" && hasSuccessToday env db && !req.force)
      = true := by
    simp [hsched, hsucc, hforce]
  rw [handler_skip env req db hcond]
  refine ⟨rfl, rfl, rfl, rfl, ?_⟩
  intro e he s
  simp only [List.mem_singleton] at he
  subst he
  simp

/-- Witness for C1 at a concrete input: a prior success record for
2024-01-02, a cron source, no force. -/
theorem scheduled_duplicate_run_skips_witness :
    (handler ⟨"2024-01-02", true, true, sampleCsv2, none⟩ ⟨"cron_1600", false⟩
        ⟨[⟨"2024-01-02", "sheet_button", "success", none, 2⟩], [], []⟩).outcome
      = .skippedAlready ∧
    (handler ⟨"2024-01-02", true, true, sampleCsv2, none⟩ ⟨"cron_1600", false⟩
        ⟨[⟨"2024-01-02", "sheet_button", "success", none, 2⟩], [], []⟩).db.latest = [] := by
  have h := scheduled_duplicate_run_skips
    ⟨"2024-01-02", true, true, sampleCsv2, none⟩ ⟨"cron_1600", false⟩
    ⟨[⟨"2024-01-02", "sheet_button", "success", none, 2⟩], [], []⟩
    ⟨⟨"2024-01-02", "sheet_button", "success", none, 2⟩, by decide, by decide, by decide⟩
    (by decide) (by decide)
  exact ⟨h.1, h.2.1⟩

/-- C5: for every non-forced run that passes the duplicate guard, the
configuration and fetch guards, and whose validated sheet date (the
single distinct as-of date, equal to today) already has entries in
CurveHistory, the handler returns the distinguishable conflict outcome
(not an error: it carries no error code) exposing the existing rows,
logs one skipped IngestRun record with reason history_exists_for_date,
and leaves both data tables unchanged. -/
theorem history_conflict_surfaced (env : Env) (req : Req) (db : DBState)
    (hforce : req.force = false)
    (hguard : strStartsWith req.source "cron" = false ∨ hasSuccessToday env db = false)
    (hurl : env.csvUrlConfigured = true) (hfetch : env.fetchOk = true)
    (hdate : dedupFirst ((parseMetalsCsv env.csvText).map fun r => r.as_of_date)
      = [env.todayStr])
    (hexisting : db.history.filter (fun r => r.as_of_date == env.todayStr) ≠ []) :
    (handler env req db).outcome = .conflictExists env.todayStr
        (db.history.filter fun r => r.as_of_date == env.todayStr).length
        (db.history.filter fun r => r.as_of_date == env.todayStr) ∧
    errorCode (handler env req db).outcome = none ∧
    (handler env req db).db.latest = db.latest ∧
    (handler env req db).db.history = db.history ∧
    (handler env req db).db.ingestLog = db.ingestLog ++
      [⟨env.todayStr, req.source, "skipped", some "history_exists_for_date",
        (db.history.filter fun r => r.as_of_date == env.todayStr).length⟩] := by
  have h1 : (strStartsWith req.source "cron" && hasSuccessToday env db && !req.force)
      = false := by
    rcases hguard with hg | hg <;> simp [hg]
  have h4 : parseMetalsCsv env.csvText ≠ [] := by
    intro hnil
    rw [hnil] at hdate
    simp [dedupFirst] at hdate
  have hcc : (!(db.history.filter fun r => r.as_of_date == env.todayStr).isEmpty
      && !req.force) = true := by
    have hie : (db.history.filter fun r => r.as_of_date == env.todayStr).isEmpty
        = false := by
      rcases hi : (db.history.filter fun r => r.as_of_date == env.todayStr).isEmpty
        with _ | _
      · exact hi
      · exact absurd (List.isEmpty_iff.mp hi) hexisting
    simp [hie, hforce]
  rw [handler_guard_pass env req db h1 hurl hfetch h4,
    dateStage_noforce_ok env req db _ hforce hdate,
    writeStage_conflict env req db _ _ hcc]
  exact ⟨rfl, rfl, rfl, rfl, rfl⟩

/-- Witness for C5 at a concrete input: history already holds the rows
of sampleCsv2 for 2024-01-02 and the same sheet is submitted again
without force. -/
theorem history_conflict_surfaced_witness :
    (handler ⟨"2024-01-02", true, true, sampleCsv2, none⟩ ⟨"sheet_button", false⟩
        ⟨[], [], parseMetalsCsv sampleCsv2⟩).outcome
      = .conflictExists "2024-01-02" 2 (parseMetalsCsv sampleCsv2) ∧
    (handler ⟨"2024-01-02", true, true, sampleCsv2, none⟩ ⟨"sheet_button", false⟩
        ⟨[], [], parseMetalsCsv sampleCsv2⟩).db.history = parseMetalsCsv sampleCsv2 := by
  have h := history_conflict_surfaced
    ⟨"2024-01-02", true, true, sampleCsv2, none⟩ ⟨"sheet_button", false⟩
    ⟨[], [], parseMetalsCsv sampleCsv2⟩
    (by decide) (Or.inl (by decide)) (by decide) (by decide) (by decide) (by decide)
  refine ⟨?_, h.2.2.2.1⟩
  rw [h.1]
  decide

/-- C6: for every non-forced run that passes the earlier guards and
whose surviving rows share exactly one distinct as-of date different
from the resolved run date, the handler fails with the date-mismatch
outcome carrying both the sheet date and the expected date, logs one
error IngestRun record, and aborts before any write: both data tables
are unchanged and the trace holds nothing but that audit insert. -/
theorem date_mismatch_aborts (env : Env) (req : Req) (db : DBState) (sd : String)
    (hforce : req.force = false)
    (hguard : strStartsWith req.source "cron" = false ∨ hasSuccessToday env db = false)
    (hurl : env.csvUrlConfigured = true) (hfetch : env.fetchOk = true)
    (hdate : dedupFirst ((parseMetalsCsv env.csvText).map fun r => r.as_of_date) = [sd])
    (hne : sd ≠ env.todayStr) :
    (handler env req db).outcome = .errorDateMismatch sd env.todayStr ∧
    errorCode (handler env req db).outcome = some "sheet_date_mismatch" ∧
    (handler env req db).db.latest = db.latest ∧
    (handler env req db).db.history = db.history ∧
    (handler env req db).db.ingestLog = db.ingestLog ++
      [⟨env.todayStr, req.source, "error",
        some ("sheet_date_mismatch: sheet=" ++ sd ++ ", expected=" ++ env.todayStr),
        (parseMetalsCsv env.csvText).length⟩] ∧
    (handler env req db).trace = [.logInsert
      ⟨env.todayStr, req.source, "error",
        some ("sheet_date_mismatch: sheet=" ++ sd ++ ", expected=" ++ env.todayStr),
        (parseMetalsCsv env.csvText).length⟩] := by
  have h1 : (strStartsWith req.source "cron" && hasSuccessToday env db && !req.force)
      = false := by
    rcases hguard with hg | hg <;> simp [hg]
  have h4 : parseMetalsCsv env.csvText ≠ [] := by
    intro hnil
    rw [hnil] at hdate
    simp [dedupFirst] at hdate
  rw [handler_guard_pass env req db h1 hurl hfetch h4,
    dateStage_mismatch env req db _ sd hforce hdate hne]
  exact ⟨rfl, rfl, rfl, rfl, rfl, rfl⟩

/-- Witness for C6 at the concrete input of the spec: a batch dated
2024-01-02 submitted on run date 2024-01-03 without force. -/
theorem date_mismatch_aborts_witness :
    (handler ⟨"2024-01-03", true, true, sampleCsv2, none⟩ ⟨"sheet_button", false⟩
        ⟨[], [], []⟩).outcome = .errorDateMismatch "2024-01-02" "2024-01-03" ∧
    (handler ⟨"2024-01-03", true, true, sampleCsv2, none⟩ ⟨"sheet_button", false⟩
        ⟨[], [], []⟩).db.latest = [] ∧
    (handler ⟨"2024-01-03", true, true, sampleCsv2, none⟩ ⟨"sheet_button", false⟩
        ⟨[], [], []⟩).db.history = [] := by
  have h := date_mismatch_aborts
    ⟨"2024-01-03", true, true, sampleCsv2, none⟩ ⟨"sheet_button", false⟩
    ⟨[], [], []⟩ "2024-01-02"
    (by decide) (Or.inl (by decide)) (by decide) (by decide) (by decide) (by decide)
  exact ⟨h.1, h.2.2.1, h.2.2.2.1⟩

/-- C2: for every run whose write transaction fails at any point (the
only exception source of the model is the injected statement fault
inside BEGIN/COMMIT), the transaction is rolled back: the latest and
history tables are exactly as before the run, the caller receives the
unhandled_exception error, and exactly one error IngestRun record is
written (the trace carries exactly that one audit insert, after the
rollback). -/
theorem txn_failure_rolls_back (env : Env) (req : Req) (db : DBState)
    (h : (handler env req db).outcome = .errorUnhandled) :
    (handler env req db).db.latest = db.latest ∧
    (handler env req db).db.history = db.history ∧
    errorCode (handler env req db).outcome = some "unhandled_exception" ∧
    (handler env req db).db.ingestLog = db.ingestLog ++
      [⟨env.todayStr, req.source, "error", some "unhandled_exception", 0⟩] ∧
    (handler env req db).trace.filter isLogEv =
      [.logInsert ⟨env.todayStr, req.source, "error", some "unhandled_exception", 0⟩] ∧
    Event.rollback ∈ (handler env req db).trace := by
  have hw := handler_unhandled_write env req db h
  rw [hw] at h ⊢
  have hc : (!(db.history.filter fun r => r.as_of_date == env.todayStr).isEmpty
      && !req.force) = false := by
    rcases hx : (!(db.history.filter fun r => r.as_of_date == env.todayStr).isEmpty
        && !req.force) with _ | _
    · exact hx
    · rw [writeStage_conflict env req db _ _ hx] at h
      simp at h
  have hf : txnFails env.txnFailAt
      (txnStmts (db.history.filter fun r => r.as_of_date == env.todayStr)
        (ingestRows env req) req.force env.todayStr).length = true := by
    rcases hx : txnFails env.txnFailAt
        (txnStmts (db.history.filter fun r => r.as_of_date == env.todayStr)
          (ingestRows env req) req.force env.todayStr).length with _ | _
    · rw [writeStage_ok env req db _ _ hc hx] at h
      simp at h
    · rfl
  rw [writeStage_fail env req db _ _ hc hf]
  refine ⟨rfl, rfl, rfl, rfl, ?_, ?_⟩
  · simp [isLogEv, List.map_take, List.filter_append, filter_isLogEv_take_stmts]
  · simp

/-- Witness for C2 at the concrete input of the spec: a six-row batch
whose fifth row write throws (statement index 5 is the fifth upsert,
after the latest delete at index 0); afterwards no row of the batch is
in either data table and exactly the one error record was logged. -/
theorem txn_failure_rolls_back_witness :
    (handler ⟨"2024-01-02", true, true, sampleCsv6, some 5⟩ ⟨"sheet_button", false⟩
        ⟨[], [], []⟩).db.latest = [] ∧
    (handler ⟨"2024-01-02", true, true, sampleCsv6, some 5⟩ ⟨"sheet_button", false⟩
        ⟨[], [], []⟩).db.history = [] ∧
    (handler ⟨"2024-01-02", true, true, sampleCsv6, some 5⟩ ⟨"sheet_button", false⟩
        ⟨[], [], []⟩).db.ingestLog =
      [⟨"2024-01-02", "sheet_button", "error", some "unhandled_exception", 0⟩] := by
  have h := txn_failure_rolls_back
    ⟨"2024-01-02", true, true, sampleCsv6, some 5⟩ ⟨"sheet_button", false⟩
    ⟨[], [], []⟩ (by decide)
  exact ⟨h.1, h.2.1, h.2.2.2.1⟩

/-- C3: after every successful run (forced or not) with resolved sheet
date sd, the history rows at sd are exactly the one batch just written;
in particular a successful forced run on a date that already had history
entries purges them inside the write transaction before re-insertion
(the first two trace events are the BEGIN and the history delete), so
at-most-one-batch-per-date is preserved. -/
theorem forced_rerun_keeps_single_batch (env : Env) (req : Req) (db : DBState)
    (sd : String) (n : Nat) (src : String)
    (h : (handler env req db).outcome = .success sd n src) :
    ((handler env req db).db.history.filter fun r => r.as_of_date == sd)
      = ingestRows env req ∧
    ingestRows env req ≠ [] ∧
    (req.force = true → db.history.filter (fun r => r.as_of_date == sd) ≠ [] →
      (handler env req db).trace.take 2 =
        [Event.begin, Event.stmt (Stmt.delHistory sd)]) := by
  obtain ⟨hsd, hn, hsrc, hdates, hne, hrec⟩ := handler_succ_char env req db sd n src h
  subst hsd
  rw [hrec]
  refine ⟨?_, hne, ?_⟩
  · show ((db.history.filter fun r => r.as_of_date ≠ env.todayStr)
        ++ ingestRows env req).filter (fun r => r.as_of_date == env.todayStr)
      = ingestRows env req
    rw [List.filter_append]
    have h1 : (db.history.filter fun r => r.as_of_date ≠ env.todayStr).filter
        (fun r => r.as_of_date == env.todayStr) = [] := by
      refine List.filter_eq_nil_iff.mpr fun r hr => ?_
      have hr2 := (List.mem_filter.mp hr).2
      simp only [ne_eq, decide_not, Bool.not_eq_eq_eq_not, Bool.not_true,
        decide_eq_false_iff_not] at hr2
      simp [hr2]
    have h2 : (ingestRows env req).filter (fun r => r.as_of_date == env.todayStr)
        = ingestRows env req :=
      List.filter_eq_self.mpr fun r hr => by simp [hdates r hr]
    rw [h1, h2]
    simp
  · intro hforce hex
    have hie : (db.history.filter fun r => r.as_of_date == env.todayStr).isEmpty
        = false := by
      rcases hi : (db.history.filter fun r => r.as_of_date == env.todayStr).isEmpty
        with _ | _
      · exact hi
      · exact absurd (List.isEmpty_iff.mp hi) hex
    show ([Event.begin]
        ++ ((txnStmts (db.history.filter fun r => r.as_of_date == env.todayStr)
              (ingestRows env req) req.force env.todayStr).map Event.stmt)
        ++ _).take 2 = _
    unfold txnStmts
    rw [hie, hforce]
    simp

/-- Witness for C3 at a concrete input: history holds a six-row batch
for 2024-01-02 and a forced two-row run for the same date replaces it
wholesale; the trace purges history right after BEGIN. -/
theorem forced_rerun_keeps_single_batch_witness :
    ((handler ⟨"2024-01-02", true, true, sampleCsv2, none⟩ ⟨"sheet_button", true⟩
        ⟨[], [], parseMetalsCsv sampleCsv6⟩).db.history.filter
          fun r => r.as_of_date == "2024-01-02")
      = ingestRows ⟨"2024-01-02", true, true, sampleCsv2, none⟩ ⟨"sheet_button", true⟩ ∧
    (handler ⟨"2024-01-02", true, true, sampleCsv2, none⟩ ⟨"sheet_button", true⟩
        ⟨[], [], parseMetalsCsv sampleCsv6⟩).trace.take 2 =
      [Event.begin, Event.stmt (Stmt.delHistory "2024-01-02")] := by
  have h := forced_rerun_keeps_single_batch
    ⟨"2024-01-02", true, true, sampleCsv2, none⟩ ⟨"sheet_button", true⟩
    ⟨[], [], parseMetalsCsv sampleCsv6⟩ "2024-01-02" 2 "sheet_button" (by decide)
  exact ⟨h.1, h.2.2 (by decide) (by decide)⟩

/-- C9, counterexample: on a concrete successful run the success audit
record is not written inside the transaction, as the claim states, but
after the COMMIT: the trace contains BEGIN, COMMIT and a success audit
insert, yet no success audit insert lies between the BEGIN and the
COMMIT. -/
theorem success_audit_not_inside_txn_cex :
    (handler ⟨"2024-01-02", true, true, sampleCsv2, none⟩ ⟨"sheet_button", false⟩
        ⟨[], [], []⟩).outcome = .success "2024-01-02" 2 "sheet_button" ∧
    Event.begin ∈ (handler ⟨"2024-01-02", true, true, sampleCsv2, none⟩
        ⟨"sheet_button", false⟩ ⟨[], [], []⟩).trace ∧
    Event.commit ∈ (handler ⟨"2024-01-02", true, true, sampleCsv2, none⟩
        ⟨"sheet_button", false⟩ ⟨[], [], []⟩).trace ∧
    Event.logInsert ⟨"2024-01-02", "sheet_button", "success", none, 2⟩ ∈
      (handler ⟨"2024-01-02", true, true, sampleCsv2, none⟩
        ⟨"sheet_button", false⟩ ⟨[], [], []⟩).trace ∧
    successLogInsideTxn ((handler ⟨"2024-01-02", true, true, sampleCsv2, none⟩
        ⟨"sheet_button", false⟩ ⟨[], [], []⟩).trace) = false := by
  decide

/-- C9 amended: every invocation that reaches the core writes exactly
one IngestRun record whose status reflects the terminal outcome, even
when the data transaction rolls back; in the success case that record is
written immediately after the COMMIT, in its own unit of work, not
inside the data transaction. -/
theorem one_audit_record_per_run (env : Env) (req : Req) (db : DBState) :
    (∃ lr : LogRow,
      (handler env req db).db.ingestLog = db.ingestLog ++ [lr] ∧
      lr.status = statusOf (handler env req db).outcome ∧
      (handler env req db).trace.filter isLogEv = [Event.logInsert lr]) ∧
    (∀ sd n src, (handler env req db).outcome = .success sd n src →
      ∃ pre lr, (handler env req db).trace =
        pre ++ [Event.commit, Event.logInsert lr] ∧ lr.status = "success") := by
  rcases hg1 : (strStartsWith req.source "cron" && hasSuccessToday env db && !req.force)
    with _ | _
  case true =>
    rw [handler_skip env req db hg1]
    exact ⟨⟨_, rfl, rfl, by simp [isLogEv]⟩, fun sd n src hsucc => by simp at hsucc⟩
  rcases hg2 : env.csvUrlConfigured with _ | _
  case false =>
    unfold handler
    rw [hg1, hg2]
    simp only [Bool.false_eq_true, if_false, Bool.not_false, if_true]
    exact ⟨⟨_, rfl, rfl, by simp [isLogEv]⟩, fun sd n src hsucc => by simp at hsucc⟩
  rcases hg3 : env.fetchOk with _ | _
  case false =>
    unfold handler
    rw [hg1, hg2, hg3]
    simp only [Bool.false_eq_true, if_false, Bool.not_true, Bool.not_false, if_true]
    exact ⟨⟨_, rfl, rfl, by simp [isLogEv]⟩, fun sd n src hsucc => by simp at hsucc⟩
  rcases hrows : parseMetalsCsv env.csvText with _ | ⟨r0, rt⟩
  case nil =>
    unfold handler
    rw [hg1, hg2, hg3]
    simp only [Bool.false_eq_true, if_false, Bool.not_true, Bool.not_false, if_true,
      hrows, List.isEmpty_nil, if_true]
    exact ⟨⟨_, rfl, rfl, by simp [isLogEv]⟩, fun sd n src hsucc => by simp at hsucc⟩
  have h4 : parseMetalsCsv env.csvText ≠ [] := by
    rw [hrows]
    exact List.cons_ne_nil r0 rt
  have hpass := handler_guard_pass env req db hg1 hg2 hg3 h4
  have hwrite : handler env req db =
      writeStage env req db (ingestRows env req) env.todayStr ∨
      ∃ lr : LogRow,
        handler env req db =
          { outcome := (handler env req db).outcome
            db := appendLog db lr
            trace := [Event.logInsert lr] } ∧
        lr.status = statusOf (handler env req db).outcome ∧
        (∀ sd n src, (handler env req db).outcome ≠ .success sd n src) := by
    rcases hforce : req.force with _ | _
    · rcases hu : dedupFirst ((parseMetalsCsv env.csvText).map fun r => r.as_of_date)
        with _ | ⟨d, t⟩
      · right
        have hrec : handler env req db =
            { outcome := .errorMultipleDates
                (dedupFirst ((parseMetalsCsv env.csvText).map fun r => r.as_of_date))
              db := appendLog db ⟨env.todayStr, req.source, "error",
                some "multiple_as_of_dates_in_sheet", (parseMetalsCsv env.csvText).length⟩
              trace := [Event.logInsert ⟨env.todayStr, req.source, "error",
                some "multiple_as_of_dates_in_sheet",
                (parseMetalsCsv env.csvText).length⟩] } := by
          rw [hpass]
          unfold dateStage
          rw [hforce, hu]
          simp [hu]
        rw [hrec]
        exact ⟨_, rfl, rfl, fun sd n src hsucc => by simp at hsucc⟩
      · rcases t with _ | ⟨d2, t2⟩
        · by_cases hd : d = env.todayStr
          · subst hd
            left
            rw [hpass, dateStage_noforce_ok env req db _ hforce hu]
            have hIng : ingestRows env req = parseMetalsCsv env.csvText := by
              simp [ingestRows, hforce]
            rw [hIng]
          · right
            have hrec := dateStage_mismatch env req db _ d hforce hu hd
            rw [hpass, hrec]
            exact ⟨_, rfl, rfl, fun sd n src hsucc => by simp at hsucc⟩
        · right
          have hrec : handler env req db =
              { outcome := .errorMultipleDates
                  (dedupFirst ((parseMetalsCsv env.csvText).map fun r => r.as_of_date))
                db := appendLog db ⟨env.todayStr, req.source, "error",
                  some "multiple_as_of_dates_in_sheet",
                  (parseMetalsCsv env.csvText).length⟩
                trace := [Event.logInsert ⟨env.todayStr, req.source, "error",
                  some "multiple_as_of_dates_in_sheet",
                  (parseMetalsCsv env.csvText).length⟩] } := by
            rw [hpass]
            unfold dateStage
            rw [hforce, hu]
            simp [hu]
          rw [hrec]
          exact ⟨_, rfl, rfl, fun sd n src hsucc => by simp at hsucc⟩
    · left
      rw [hpass, dateStage_force env req db (parseMetalsCsv env.csvText) hforce]
      have hIng : ingestRows env req =
          (parseMetalsCsv env.csvText).map fun r => { r with as_of_date := env.todayStr } := by
        simp [ingestRows, hforce]
      rw [hIng]
  rcases hwrite with hwrite | ⟨lr, hrec, hstat, hnot⟩
  · rw [hwrite]
    rcases hcc : (!(db.history.filter fun r => r.as_of_date == env.todayStr).isEmpty
        && !req.force) with _ | _
    · rcases hfail : txnFails env.txnFailAt
          (txnStmts (db.history.filter fun r => r.as_of_date == env.todayStr)
            (ingestRows env req) req.force env.todayStr).length with _ | _
      · rw [writeStage_ok env req db _ _ hcc hfail]
        refine ⟨⟨_, rfl, rfl, ?_⟩, ?_⟩
        · simp [isLogEv, List.filter_append, filter_isLogEv_stmts]
        · intro sd n src hsucc
          refine ⟨[Event.begin]
            ++ ((txnStmts (db.history.filter fun r => r.as_of_date == env.todayStr)
                  (ingestRows env req) req.force env.todayStr).map Event.stmt),
            ⟨env.todayStr, req.source, "success", none, (ingestRows env req).length⟩,
            ?_, rfl⟩
          simp
      · rw [writeStage_fail env req db _ _ hcc hfail]
        refine ⟨⟨_, rfl, rfl, ?_⟩, ?_⟩
        · simp [isLogEv, List.map_take, List.filter_append, filter_isLogEv_take_stmts]
        · intro sd n src hsucc
          simp at hsucc
    · rw [writeStage_conflict env req db _ _ hcc]
      exact ⟨⟨_, rfl, rfl, by simp [isLogEv]⟩, fun sd n src hsucc => by simp at hsucc⟩
  · rw [hrec]
    refine ⟨⟨lr, rfl, by rw [← hrec]; exact hstat, by simp [isLogEv]⟩, ?_⟩
    intro sd n src hsucc
    rw [← hrec] at hsucc
    exact absurd hsucc (hnot sd n src)

/-- Witness for C9 amended at a concrete successful run: the lone audit
record and the post-commit position of the success insert. -/
theorem one_audit_record_per_run_witness :
    (∃ lr : LogRow,
      (handler ⟨"2024-01-02", true, true, sampleCsv2, none⟩ ⟨"sheet_button", false⟩
          ⟨[], [], []⟩).db.ingestLog = [] ++ [lr] ∧
      lr.status = statusOf (handler ⟨"2024-01-02", true, true, sampleCsv2, none⟩
          ⟨"sheet_button", false⟩ ⟨[], [], []⟩).outcome ∧
      (handler ⟨"2024-01-02", true, true, sampleCsv2, none⟩ ⟨"sheet_button", false⟩
          ⟨[], [], []⟩).trace.filter isLogEv = [Event.logInsert lr]) ∧
    ∃ pre lr, (handler ⟨"2024-01-02", true, true, sampleCsv2, none⟩
        ⟨"sheet_button", false⟩ ⟨[], [], []⟩).trace =
      pre ++ [Event.commit, Event.logInsert lr] ∧ lr.status = "success" := by
  have h := one_audit_record_per_run ⟨"2024-01-02", true, true, sampleCsv2, none⟩
    ⟨"sheet_button", false⟩ ⟨[], [], []⟩
  exact ⟨h.1, h.2 "2024-01-02" 2 "sheet_button" (by decide)⟩

theorem findIdx_some_mem (l : List String) (n : String) :
    ∀ s i : Nat, List.findIdx? (fun x => decide (x = n)) l s = some i → n ∈ l := by
  induction l with
  | nil =>
    intro s i h
    simp [List.findIdx?] at h
  | cons c t ih =>
    intro s i h
    rw [List.findIdx?_cons] at h
    by_cases hc : c = n
    · exact hc ▸ List.mem_cons_self c t
    · simp only [hc, decide_False, Bool.false_eq_true, if_false] at h
      exact List.mem_cons_of_mem _ (ih (s + 1) i h)

theorem headerIdxOf_none_of_missing (header : List String) (name : String)
    (hmem : name ∈ requiredNames) (hno : ∀ cell ∈ header, cell ≠ name) :
    headerIdxOf header = none := by
  rcases hsome : headerIdxOf header with _ | idx
  · rfl
  · exfalso
    unfold headerIdxOf at hsome
    split at hsome
    · rename_i a b c d e f g h1 h2 h3 h4 h5 h6 h7
      simp only [requiredNames, List.mem_cons, List.not_mem_nil, or_false] at hmem
      unfold findIdx at h1 h2 h3 h4 h5 h6 h7
      rcases hmem with rfl | rfl | rfl | rfl | rfl | rfl | rfl
      · exact hno _ (findIdx_some_mem header _ 0 a h1) rfl
      · exact hno _ (findIdx_some_mem header _ 0 b h2) rfl
      · exact hno _ (findIdx_some_mem header _ 0 c h3) rfl
      · exact hno _ (findIdx_some_mem header _ 0 d h4) rfl
      · exact hno _ (findIdx_some_mem header _ 0 e h5) rfl
      · exact hno _ (findIdx_some_mem header _ 0 f h6) rfl
      · exact hno _ (findIdx_some_mem header _ 0 g h7) rfl
    · simp at hsome

/-- C7, counterexample: a sheet whose header lacks the Metal column and
a sheet with a good header whose every data row is dropped surface the
same error code no_rows_in_sheet_or_bad_headers; the code distinguishes
no schema_mismatch error from the zero-parseable-rows error, contrary to
the claim. -/
theorem schema_mismatch_not_distinct_cex :
    (handler ⟨"2024-01-02", true, true, sampleCsvNoMetal, none⟩ ⟨"sheet_button", false⟩
        ⟨[], [], []⟩).outcome = .errorNoRows ∧
    (handler ⟨"2024-01-02", true, true, sampleCsvAllDropped, none⟩ ⟨"sheet_button", false⟩
        ⟨[], [], []⟩).outcome = .errorNoRows ∧
    (handler ⟨"2024-01-02", true, true, sampleCsvNoMetal, none⟩ ⟨"sheet_button", false⟩
        ⟨[], [], []⟩).outcome =
      (handler ⟨"2024-01-02", true, true, sampleCsvAllDropped, none⟩ ⟨"sheet_button", false⟩
        ⟨[], [], []⟩).outcome ∧
    errorCode (handler ⟨"2024-01-02", true, true, sampleCsvNoMetal, none⟩
        ⟨"sheet_button", false⟩ ⟨[], [], []⟩).outcome
      = some "no_rows_in_sheet_or_bad_headers" ∧
    errorCode (handler ⟨"2024-01-02", true, true, sampleCsvNoMetal, none⟩
        ⟨"sheet_button", false⟩ ⟨[], [], []⟩).outcome ≠ some "schema_mismatch" := by
  decide

/-- C7 amended: for every input whose header line lacks a required
column name even under a case- and whitespace-insensitive match, parsing
produces zero rows (a hard stop with no partial result), and the handler
surfaces the conflated error no_rows_in_sheet_or_bad_headers (the same
code used when every data row is dropped, not a distinct schema_mismatch
code), logging one error IngestRun record and leaving the data tables
unchanged. -/
theorem missing_header_conflated_error (env : Env) (req : Req) (db : DBState)
    (hlacks : headerLacksRequiredCI env.csvText)
    (hguard : strStartsWith req.source "cron" = false ∨ hasSuccessToday env db = false
      ∨ req.force = true)
    (hurl : env.csvUrlConfigured = true) (hfetch : env.fetchOk = true) :
    parseMetalsCsv env.csvText = [] ∧
    (handler env req db).outcome = .errorNoRows ∧
    errorCode (handler env req db).outcome = some "no_rows_in_sheet_or_bad_headers" ∧
    (handler env req db).db.latest = db.latest ∧
    (handler env req db).db.history = db.history ∧
    (handler env req db).db.ingestLog = db.ingestLog ++
      [⟨env.todayStr, req.source, "error", some "no_rows_in_sheet_or_bad_headers", 0⟩] := by
  obtain ⟨name, hmem, hci⟩ := hlacks
  have hparse : parseMetalsCsv env.csvText = [] := by
    unfold parseMetalsCsv
    rcases hsplit : (splitRn (trimChars env.csvText.data)).map (fun cs => String.mk cs)
      with _ | ⟨l0, rest⟩
    · rfl
    · rcases rest with _ | ⟨l1, rt⟩
      · rfl
      · have hcells : headerCells env.csvText = (parseCsvLine l0).map cleanField := by
          unfold headerCells
          rw [hsplit]
        have hno : ∀ cell ∈ (parseCsvLine l0).map cleanField, cell ≠ name := by
          intro cell hcell heq
          have := hci cell (hcells ▸ hcell)
          subst heq
          simp [ciMatch] at this
        have hidx := headerIdxOf_none_of_missing _ name hmem hno
        simp [hidx]
  have h1 : (strStartsWith req.source "cron" && hasSuccessToday env db && !req.force)
      = false := by
    rcases hguard with hg | hg | hg <;> simp [hg]
  refine ⟨hparse, ?_, ?_, ?_, ?_, ?_⟩ <;>
    · unfold handler
      rw [h1, hurl, hfetch]
      simp [hparse, errorCode, appendLog]

/-- Witness for C7 amended at a concrete input: the sheet missing the
Metal column. -/
theorem missing_header_conflated_error_witness :
    parseMetalsCsv sampleCsvNoMetal = [] ∧
    (handler ⟨"2024-01-02", true, true, sampleCsvNoMetal, none⟩ ⟨"sheet_button", false⟩
        ⟨[], [], []⟩).outcome = .errorNoRows ∧
    (handler ⟨"2024-01-02", true, true, sampleCsvNoMetal, none⟩ ⟨"sheet_button", false⟩
        ⟨[], [], []⟩).db.ingestLog =
      [⟨"2024-01-02", "sheet_button", "error",
        some "no_rows_in_sheet_or_bad_headers", 0⟩] := by
  have h := missing_header_conflated_error
    ⟨"2024-01-02", true, true, sampleCsvNoMetal, none⟩ ⟨"sheet_button", false⟩
    ⟨[], [], []⟩ ⟨"Metal", by decide, by decide⟩ (Or.inl (by decide))
    (by decide) (by decide)
  exact ⟨h.1, h.2.1, h.2.2.2.2.2⟩

/-- C10: droppedness of a data row depends only on the as-of date, the
metal and the tenor; the price and deficit flag of an emitted row are
total values defaulting to zero when their field does not parse finite,
and the real-yield and dollar-index values default to null, never
causing a drop. -/
theorem numeric_defaults_never_drop_rows (idx : HeaderIdx) (cols : List String) :
    ((rowOfCols idx cols).isSome = true ↔
      ∃ asOf metal, cols.get? idx.as_of_date = some asOf ∧
        cols.get? idx.metal = some metal ∧
        asOf.data.isEmpty = false ∧ (strToLower metal).data.isEmpty = false ∧
        (toNumberOpt (cols.get? idx.tenor_months)).isSome = true) ∧
    ∀ r, rowOfCols idx cols = some r →
      r.price = (toNumberOpt (cols.get? idx.price)).getD 0 ∧
      r.deficit_gdp_flag = (toNumberOpt (cols.get? idx.deficit_gdp_flag)).getD 0 ∧
      r.real_10yr_yld = toNumberOpt (cols.get? idx.real_10yr_yld) ∧
      r.dollar_index = toNumberOpt (cols.get? idx.dollar_index) := by
  rcases ha : cols.get? idx.as_of_date with _ | asOf <;>
    rcases hm : cols.get? idx.metal with _ | metal
  · constructor
    · simp only [rowOfCols, ha, hm]
      simp
    · intro r hr
      simp only [rowOfCols, ha, hm] at hr
      exact Option.noConfusion hr
  · constructor
    · simp only [rowOfCols, ha, hm]
      simp
    · intro r hr
      simp only [rowOfCols, ha, hm] at hr
      exact Option.noConfusion hr
  · constructor
    · simp only [rowOfCols, ha, hm]
      simp
    · intro r hr
      simp only [rowOfCols, ha, hm, Option.map_none'] at hr
      exact Option.noConfusion hr
  · rcases ht : toNumberOpt (cols.get? idx.tenor_months) with _ | tenor
    · constructor
      · simp only [rowOfCols, ha, hm, ht, Option.map_some']
        by_cases hae : (asOf.data.isEmpty || (strToLower metal).data.isEmpty) = true
        · simp [hae, ht]
        · simp only [hae, Bool.false_eq_true, if_false]
          simp only [Bool.not_eq_true, Bool.or_eq_false_iff] at hae
          simp [ht, hae.1, hae.2]
      · intro r hr
        simp only [rowOfCols, ha, hm, ht, Option.map_some'] at hr
        by_cases hae : (asOf.data.isEmpty || (strToLower metal).data.isEmpty) = true
        · simp [hae] at hr
        · simp [hae] at hr
    · constructor
      · by_cases hae : (asOf.data.isEmpty || (strToLower metal).data.isEmpty) = true
        · simp only [rowOfCols, ha, hm, ht, Option.map_some', hae, if_true]
          simp only [Option.isSome_none, Bool.false_eq_true, false_iff]
          rintro ⟨a2, m2, ha2, hm2, hae2, hme2, -⟩
          rw [Option.some_inj] at ha2 hm2
          subst ha2
          subst hm2
          simp [hae2, hme2] at hae
        · simp only [rowOfCols, ha, hm, ht, Option.map_some', hae, Bool.false_eq_true,
            if_false]
          simp only [Bool.not_eq_true, Bool.or_eq_false_iff] at hae
          simp only [Option.isSome_some, true_iff]
          exact ⟨asOf, metal, rfl, rfl, hae.1, hae.2, by simp [ht]⟩
      · intro r hr
        simp only [rowOfCols, ha, hm, ht, Option.map_some'] at hr
        by_cases hae : (asOf.data.isEmpty || (strToLower metal).data.isEmpty) = true
        · simp [hae] at hr
        · simp only [hae, Bool.false_eq_true, if_false, Option.some_inj] at hr
          subst hr
          exact ⟨rfl, rfl, rfl, rfl⟩

/-- Witness for C10 at a concrete input: a row whose price, real yield,
dollar index and deficit flag are all unparseable is still emitted, with
price zero, deficit zero and null real yield and dollar index. -/
theorem numeric_defaults_never_drop_rows_witness :
    ∃ r, rowOfCols ⟨0, 1, 2, 3, 4, 5, 6⟩
        ["2024-01-02", "Gold", "1", "n/a", "x", "y", "z"] = some r ∧
      r.price = 0 ∧ r.deficit_gdp_flag = 0 ∧ r.real_10yr_yld = none ∧
      r.dollar_index = none := by
  have h := numeric_defaults_never_drop_rows ⟨0, 1, 2, 3, 4, 5, 6⟩
    ["2024-01-02", "Gold", "1", "n/a", "x", "y", "z"]
  have hsome : (rowOfCols ⟨0, 1, 2, 3, 4, 5, 6⟩
      ["2024-01-02", "Gold", "1", "n/a", "x", "y", "z"]).isSome = true :=
    h.1.mpr ⟨"2024-01-02", "Gold", by decide, by decide, by decide, by decide, by decide⟩
  rcases hr : rowOfCols ⟨0, 1, 2, 3, 4, 5, 6⟩
      ["2024-01-02", "Gold", "1", "n/a", "x", "y", "z"] with _ | r
  · rw [hr] at hsome
    simp at hsome
  · obtain ⟨hp, hd, hy, hx⟩ := h.2 r hr
    refine ⟨r, rfl, ?_, ?_, ?_, ?_⟩
    · rw [hp]
      decide
    · rw [hd]
      decide
    · rw [hy]
      decide
    · rw [hx]
      decide

theorem handler_split (env : Env) (req : Req) (db : DBState) :
    handler env req db = writeStage env req db (ingestRows env req) env.todayStr ∨
    ∃ lr : LogRow,
      handler env req db =
        { outcome := (handler env req db).outcome
          db := appendLog db lr
          trace := [Event.logInsert lr] } ∧
      ∀ sd n src, (handler env req db).outcome ≠ .success sd n src := by
  rcases hg1 : (strStartsWith req.source "cron" && hasSuccessToday env db && !req.force)
    with _ | _
  case true =>
    right
    rw [handler_skip env req db hg1]
    exact ⟨_, rfl, fun sd n src h => by simp at h⟩
  rcases hg2 : env.csvUrlConfigured with _ | _
  case false =>
    right
    unfold handler
    rw [hg1, hg2]
    simp only [Bool.false_eq_true, if_false, Bool.not_false, if_true]
    exact ⟨_, rfl, fun sd n src h => by simp at h⟩
  rcases hg3 : env.fetchOk with _ | _
  case false =>
    right
    unfold handler
    rw [hg1, hg2, hg3]
    simp only [Bool.false_eq_true, if_false, Bool.not_true, Bool.not_false, if_true]
    exact ⟨_, rfl, fun sd n src h => by simp at h⟩
  rcases hrows : parseMetalsCsv env.csvText with _ | ⟨r0, rt⟩
  case nil =>
    right
    unfold handler
    rw [hg1, hg2, hg3]
    simp only [Bool.false_eq_true, if_false, Bool.not_true, Bool.not_false, if_true,
      hrows, List.isEmpty_nil, if_true]
    exact ⟨_, rfl, fun sd n src h => by simp at h⟩
  have h4 : parseMetalsCsv env.csvText ≠ [] := by
    rw [hrows]
    exact List.cons_ne_nil r0 rt
  have hpass := handler_guard_pass env req db hg1 hg2 hg3 h4
  rcases hforce : req.force with _ | _
  · rcases hu : dedupFirst ((parseMetalsCsv env.csvText).map fun r => r.as_of_date)
      with _ | ⟨d, t⟩
    · right
      have hrec : handler env req db =
          { outcome := .errorMultipleDates
              (dedupFirst ((parseMetalsCsv env.csvText).map fun r => r.as_of_date))
            db := appendLog db ⟨env.todayStr, req.source, "error",
              some "multiple_as_of_dates_in_sheet", (parseMetalsCsv env.csvText).length⟩
            trace := [Event.logInsert ⟨env.todayStr, req.source, "error",
              some "multiple_as_of_dates_in_sheet",
              (parseMetalsCsv env.csvText).length⟩] } := by
        rw [hpass]
        unfold dateStage
        rw [hforce, hu]
        simp [hu]
      rw [hrec]
      exact ⟨_, rfl, fun sd n src h => by simp at h⟩
    · rcases t with _ | ⟨d2, t2⟩
      · by_cases hd : d = env.todayStr
        · subst hd
          left
          rw [hpass, dateStage_noforce_ok env req db _ hforce hu]
          have hIng : ingestRows env req = parseMetalsCsv env.csvText := by
            simp [ingestRows, hforce]
          rw [hIng]
        · right
          rw [hpass, dateStage_mismatch env req db _ d hforce hu hd]
          exact ⟨_, rfl, fun sd n src h => by simp at h⟩
      · right
        have hrec : handler env req db =
            { outcome := .errorMultipleDates
                (dedupFirst ((parseMetalsCsv env.csvText).map fun r => r.as_of_date))
              db := appendLog db ⟨env.todayStr, req.source, "error",
                some "multiple_as_of_dates_in_sheet",
                (parseMetalsCsv env.csvText).length⟩
              trace := [Event.logInsert ⟨env.todayStr, req.source, "error",
                some "multiple_as_of_dates_in_sheet",
                (parseMetalsCsv env.csvText).length⟩] } := by
          rw [hpass]
          unfold dateStage
          rw [hforce, hu]
          simp [hu]
        rw [hrec]
        exact ⟨_, rfl, fun sd n src h => by simp at h⟩
  · left
    rw [hpass, dateStage_force env req db (parseMetalsCsv env.csvText) hforce]
    have hIng : ingestRows env req =
        (parseMetalsCsv env.csvText).map fun r => { r with as_of_date := env.todayStr } := by
      simp [ingestRows, hforce]
    rw [hIng]

theorem handler_nonsuccess_latest (env : Env) (req : Req) (db : DBState)
    (h : ∀ sd n src, (handler env req db).outcome ≠ .success sd n src) :
    (handler env req db).db.latest = db.latest := by
  rcases handler_split env req db with hw | ⟨lr, hrec, -⟩
  · rw [hw] at h ⊢
    rcases hcc : (!(db.history.filter fun r => r.as_of_date == env.todayStr).isEmpty
        && !req.force) with _ | _
    · rcases hfail : txnFails env.txnFailAt
          (txnStmts (db.history.filter fun r => r.as_of_date == env.todayStr)
            (ingestRows env req) req.force env.todayStr).length with _ | _
      · exfalso
        rw [writeStage_ok env req db _ _ hcc hfail] at h
        exact h _ _ _ rfl
      · rw [writeStage_fail env req db _ _ hcc hfail]
        rfl
    · rw [writeStage_conflict env req db _ _ hcc]
      rfl
  · have hdb := congrArg (fun x => x.db.latest) hrec
    simpa [appendLog] using hdb

theorem mem_upsertOne {x r : CurveRow} {st : List CurveRow}
    (hx : x ∈ latestStep st (.upsertLatest r)) :
    x = r ∨ (x ∈ st ∧ sameKey x r = false) := by
  unfold latestStep at hx
  by_cases hany : (st.any fun y => sameKey y r) = true
  · simp only [hany, if_true] at hx
    rcases List.mem_map.mp hx with ⟨y, hy, hfy⟩
    by_cases hk : sameKey y r = true
    · rw [if_pos hk] at hfy
      exact Or.inl hfy.symm
    · rw [if_neg hk] at hfy
      subst hfy
      exact Or.inr ⟨hy, by simpa using hk⟩
  · simp only [hany, Bool.false_eq_true, if_false] at hx
    rcases List.mem_append.mp hx with hx | hx
    · refine Or.inr ⟨hx, ?_⟩
      have hall := List.any_eq_false.mp (by simpa using hany)
      simpa using hall x hx
    · simp only [List.mem_singleton] at hx
      exact Or.inl hx

theorem mem_upsertAll {x : CurveRow} (rows : List CurveRow) (st : List CurveRow)
    (hx : x ∈ upsertAll rows st) :
    x ∈ rows ∨ (x ∈ st ∧ ∀ r ∈ rows, sameKey x r = false) := by
  induction rows generalizing st with
  | nil =>
    refine Or.inr ⟨by simpa [upsertAll] using hx, fun r hr => absurd hr (List.not_mem_nil r)⟩
  | cons r rs ih =>
    have hx2 : x ∈ upsertAll rs (latestStep st (.upsertLatest r)) := by
      simpa [upsertAll] using hx
    rcases ih _ hx2 with hmem | ⟨hst, hkeys⟩
    · exact Or.inl (List.mem_cons_of_mem _ hmem)
    · rcases mem_upsertOne hst with rfl | ⟨hst2, hk⟩
      · exact Or.inl (List.mem_cons_self _ _)
      · refine Or.inr ⟨hst2, fun r2 hr2 => ?_⟩
        rcases List.mem_cons.mp hr2 with rfl | hr2
        · exact hk
        · exact hkeys r2 hr2

theorem distinctKeys_upsertOne (r : CurveRow) {st : List CurveRow}
    (h : distinctKeys st) : distinctKeys (latestStep st (.upsertLatest r)) := by
  unfold latestStep distinctKeys
  by_cases hany : (st.any fun y => sameKey y r) = true
  · simp only [hany, if_true]
    rw [List.pairwise_map]
    refine h.imp fun {a b} hab => ?_
    have hka : ((if sameKey a r = true then r else a).metal = a.metal ∧
        (if sameKey a r = true then r else a).tenor_months = a.tenor_months) := by
      by_cases hk : sameKey a r = true
      · simp only [hk, if_true]
        have := hk
        unfold sameKey at this
        simp only [Bool.and_eq_true, beq_iff_eq] at this
        exact ⟨this.1.symm, this.2.symm⟩
      · simp [hk]
    have hkb : ((if sameKey b r = true then r else b).metal = b.metal ∧
        (if sameKey b r = true then r else b).tenor_months = b.tenor_months) := by
      by_cases hk : sameKey b r = true
      · simp only [hk, if_true]
        have := hk
        unfold sameKey at this
        simp only [Bool.and_eq_true, beq_iff_eq] at this
        exact ⟨this.1.symm, this.2.symm⟩
      · simp [hk]
    rw [hka.1, hka.2, hkb.1, hkb.2]
    exact hab
  · simp only [hany, Bool.false_eq_true, if_false]
    rw [List.pairwise_append]
    refine ⟨h, List.pairwise_singleton _ _, fun a ha b hb => ?_⟩
    simp only [List.mem_singleton] at hb
    subst hb
    have hall := List.any_eq_false.mp (by simpa using hany)
    have := hall a ha
    unfold sameKey at this
    simp only [Bool.and_eq_true, beq_iff_eq, not_and] at this
    rintro ⟨h1, h2⟩
    exact this h1 h2

theorem distinctKeys_upsertAll (rows : List CurveRow) {st : List CurveRow}
    (h : distinctKeys st) : distinctKeys (upsertAll rows st) := by
  induction rows generalizing st with
  | nil => simpa [upsertAll] using h
  | cons r rs ih =>
    have : distinctKeys (upsertAll rs (latestStep st (.upsertLatest r))) :=
      ih (distinctKeys_upsertOne r h)
    simpa [upsertAll] using this

theorem count_le_one_of_distinctKeys {l : List CurveRow} (h : distinctKeys l)
    (m : String) (t : ℚ) :
    (l.filter fun r => r.metal == m && r.tenor_months == t).length ≤ 1 := by
  have hp : distinctKeys (l.filter fun r => r.metal == m && r.tenor_months == t) :=
    List.Pairwise.filter _ h
  rcases hf : l.filter fun r => r.metal == m && r.tenor_months == t with _ | ⟨a, tl⟩
  · simp [hf]
  · rcases tl with _ | ⟨b, tl2⟩
    · simp [hf]
    · exfalso
      rw [hf] at hp
      unfold distinctKeys at hp
      have hR := (List.pairwise_cons.mp hp).1 b (List.mem_cons_self _ _)
      have hamem : a ∈ l.filter fun r => r.metal == m && r.tenor_months == t := by
        rw [hf]
        exact List.mem_cons_self _ _
      have hbmem : b ∈ l.filter fun r => r.metal == m && r.tenor_months == t := by
        rw [hf]
        exact List.mem_cons_of_mem _ (List.mem_cons_self _ _)
      have hpa := (List.mem_filter.mp hamem).2
      have hpb := (List.mem_filter.mp hbmem).2
      simp only [Bool.and_eq_true, beq_iff_eq] at hpa hpb
      exact hR ⟨hpa.1.trans hpb.1.symm, hpa.2.trans hpb.2.symm⟩

theorem lastDateFor_append (m : String) (t : ℚ)
    (past : List (String × List CurveRow)) (b : String × List CurveRow) :
    lastDateFor m t (past ++ [b]) =
      if keyMem m t b.2 then some b.1 else lastDateFor m t past := by
  unfold lastDateFor
  rw [List.filter_append]
  by_cases hk : keyMem m t b.2 = true
  · simp [hk, List.getLast?_concat]
  · simp [hk]

theorem parseRowsLoop_eq_filterMap (idx : HeaderIdx) (ls : List String)
    (acc : List CurveRow) :
    parseRowsLoop idx ls acc = acc ++ ls.filterMap (fun l =>
      if (jsTrim l).data.isEmpty then none else rowOfLine idx (jsTrim l)) := by
  induction ls generalizing acc with
  | nil => simp [parseRowsLoop]
  | cons l t ih =>
    unfold parseRowsLoop
    by_cases hb : (jsTrim l).data.isEmpty
    · simp only [hb, if_true, List.filterMap_cons]
      rw [ih]
    · rcases hr : rowOfLine idx (jsTrim l) with _ | r
      · simp only [hb, Bool.false_eq_true, if_false, hr, List.filterMap_cons]
        rw [ih]
      · simp only [hb, Bool.false_eq_true, if_false, hr, List.filterMap_cons]
        rw [ih (acc ++ [r])]
        simp

/-- C8, counterexample: on a two-row batch whose second row has a good
tenor but a non-numeric price, the parser of the code keeps both rows
(defaulting the price), while the claimed policy (drop a row whose
tenor or any required numeric field is non-finite, and report a dropped
count) keeps one row and reports one drop: the outputs differ. -/
theorem parser_drop_policy_cex :
    parseMetalsCsv sampleCsvBadPrice ≠ (claimParseC8 sampleCsvBadPrice).1 ∧
    (parseMetalsCsv sampleCsvBadPrice).length = 2 ∧
    ((claimParseC8 sampleCsvBadPrice).1).length = 1 ∧
    (claimParseC8 sampleCsvBadPrice).2 = 1 := by
  decide

/-- C8 amended: for every input with a resolvable header, the parser
output is the ordered subsequence of the nonblank trimmed data lines
accepted by the per-row rule (nonempty as-of date and metal, parseable
tenor; the other numeric fields only default), in source order; no
dropped-row count is returned. -/
theorem parser_keeps_rows_with_parseable_tenor (text : String) (l0 : String)
    (rest : List String) (idx : HeaderIdx)
    (hsplit : (splitRn (trimChars text.data)).map (fun cs => String.mk cs) = l0 :: rest)
    (hidx : headerIdxOf ((parseCsvLine l0).map cleanField) = some idx) :
    parseMetalsCsv text = rest.filterMap (fun l =>
      if (jsTrim l).data.isEmpty then none else rowOfLine idx (jsTrim l)) := by
  unfold parseMetalsCsv
  rw [hsplit]
  rcases rest with _ | ⟨l1, rt⟩
  · rfl
  · simp only [hidx]
    rw [parseRowsLoop_eq_filterMap]
    simp

/-- Witness for C8 amended at the concrete input of the spec: a ten-row
batch with two non-numeric tenors yields exactly eight rows. -/
theorem parser_keeps_rows_with_parseable_tenor_witness :
    (parseMetalsCsv sampleCsv10).length = 8 := by
  have h := parser_keeps_rows_with_parseable_tenor sampleCsv10 sampleHeader
    ["2024-01-02,Gold,1,2050,1.7,104,1",
      "2024-01-02,Gold,2,2052,1.7,104,1",
      "2024-01-02,Gold,abc,2054,1.7,104,1",
      "2024-01-02,Gold,6,2058,1.7,104,1",
      "2024-01-02,Gold,9,2061,1.7,104,1",
      "2024-01-02,Gold,12,2065,1.7,104,1",
      "2024-01-02,Silver,n/a,23,1.7,104,0",
      "2024-01-02,Silver,3,23,1.7,104,0",
      "2024-01-02,Silver,6,24,1.7,104,0",
      "2024-01-02,Silver,12,25,1.7,104,0"]
    ⟨0, 1, 2, 3, 4, 5, 6⟩ (by decide) (by decide)
  rw [h]
  decide

theorem step_LatestInv (env : Env) (req : Req) (db : DBState)
    (past : List (String × List CurveRow)) (h : LatestInv past db.latest) :
    LatestInv (past ++ (match (handler env req db).outcome with
        | .success sd _ _ => [(sd, ingestRows env req)]
        | _ => []))
      (handler env req db).db.latest := by
  by_cases hs : ∃ sd n src, (handler env req db).outcome = .success sd n src
  · obtain ⟨sd, n, src, ho⟩ := hs
    obtain ⟨hsd, hn, hsrc, hdates, hne, hrec⟩ := handler_succ_char env req db sd n src ho
    subst hsd
    have hlat : (handler env req db).db.latest =
        upsertAll (ingestRows env req)
          (db.latest.filter fun r => r.as_of_date ≠ env.todayStr) := by
      rw [hrec]
    rw [ho, hlat]
    constructor
    · exact distinctKeys_upsertAll _ (List.Pairwise.filter _ h.1)
    · intro x hx
      rcases mem_upsertAll _ _ hx with hmem | ⟨hst, hkeys⟩
      · have hkm : keyMem x.metal x.tenor_months (ingestRows env req) = true := by
          unfold keyMem
          rw [List.any_eq_true]
          exact ⟨x, hmem, by simp⟩
        rw [lastDateFor_append, hkm]
        simp [hdates x hmem]
      · have hkm : keyMem x.metal x.tenor_months (ingestRows env req) = false := by
          unfold keyMem
          rw [List.any_eq_false]
          intro r hr
          have := hkeys r hr
          unfold sameKey at this
          simp only [Bool.and_eq_true, beq_iff_eq, not_and]
          simp only [Bool.and_eq_false_iff, beq_eq_false_iff_ne, ne_eq] at this
          intro h1 h2
          rcases this with hne2 | hne2
          · exact hne2 h1.symm
          · exact hne2 h2.symm
        rw [lastDateFor_append, hkm]
        simp only [Bool.false_eq_true, if_false]
        exact h.2 x (List.mem_filter.mp hst).1
  · push_neg at hs
    have hns : ∀ sd n src, (handler env req db).outcome ≠ .success sd n src :=
      fun sd n src => hs sd n src
    have hlat := handler_nonsuccess_latest env req db hns
    have hbatch : (match (handler env req db).outcome with
        | Outcome.success sd _ _ => [(sd, ingestRows env req)]
        | _ => []) = ([] : List (String × List CurveRow)) := by
      split
      next sd2 n2 src2 heq => exact absurd heq (hns _ _ _)
      next => rfl
    rw [hlat, hbatch, List.append_nil]
    exact h

theorem runSeq_LatestInv (runs : List (Env × Req)) :
    ∀ (db : DBState) (past : List (String × List CurveRow)),
      LatestInv past db.latest →
      LatestInv (past ++ successBatches runs db) (runSeq runs db).latest := by
  induction runs with
  | nil =>
    intro db past h
    simpa [runSeq, successBatches] using h
  | cons er rest ih =>
    intro db past h
    rcases er with ⟨e, r⟩
    have hstep := step_LatestInv e r db past h
    have hnext := ih (handler e r db).db _ hstep
    unfold runSeq successBatches
    rw [← List.append_assoc]
    exact hnext

/-- C4: after any sequence of runs starting from an empty latest table,
the latest table holds at most one row for every (metal, tenorMonths)
key, and any row it holds for that key carries the as-of date of the
most recent successful batch that contained the key (older dates are
overwritten, never merged). -/
theorem latest_key_unique_and_current (runs : List (Env × Req)) (db0 : DBState)
    (h0 : db0.latest = []) (m : String) (t : ℚ) :
    ((runSeq runs db0).latest.filter
        fun r => r.metal == m && r.tenor_months == t).length ≤ 1 ∧
    ∀ r ∈ (runSeq runs db0).latest, r.metal = m → r.tenor_months = t →
      lastDateFor m t (successBatches runs db0) = some r.as_of_date := by
  have hInv : LatestInv ([] ++ successBatches runs db0) (runSeq runs db0).latest := by
    refine runSeq_LatestInv runs db0 [] ?_
    rw [h0]
    exact ⟨List.Pairwise.nil, by simp⟩
  rw [List.nil_append] at hInv
  refine ⟨count_le_one_of_distinctKeys hInv.1 m t, fun r hr hm ht => ?_⟩
  rw [← hm, ← ht]
  exact hInv.2 r hr

/-- Witness for C4 at a concrete run sequence: one successful two-row
run followed by a forced one-row rerun of the same date; the gold
one-month key holds exactly one row dated by the most recent batch. -/
theorem latest_key_unique_and_current_witness :
    ((runSeq [(⟨"2024-01-02", true, true, sampleCsv2, none⟩, ⟨"sheet_button", false⟩),
        (⟨"2024-01-03", true, true, sampleCsv2, none⟩, ⟨"sheet_button", true⟩)]
        ⟨[], [], []⟩).latest.filter
          fun r => r.metal == "gold" && r.tenor_months == 1).length ≤ 1 ∧
    ∀ r ∈ (runSeq [(⟨"2024-01-02", true, true, sampleCsv2, none⟩, ⟨"sheet_button", false⟩),
        (⟨"2024-01-03", true, true, sampleCsv2, none⟩, ⟨"sheet_button", true⟩)]
        ⟨[], [], []⟩).latest, r.metal = "gold" → r.tenor_months = 1 →
      lastDateFor "gold" 1 (successBatches
        [(⟨"2024-01-02", true, true, sampleCsv2, none⟩, ⟨"sheet_button", false⟩),
          (⟨"2024-01-03", true, true, sampleCsv2, none⟩, ⟨"sheet_button", true⟩)]
        ⟨[], [], []⟩) = some r.as_of_date :=
  latest_key_unique_and_current
    [(⟨"2024-01-02", true, true, sampleCsv2, none⟩, ⟨"sheet_button", false⟩),
      (⟨"2024-01-03", true, true, sampleCsv2, none⟩, ⟨"sheet_button", true⟩)]
    ⟨[], [], []⟩ rfl "gold" 1

end MetalsRun
